import Mathlib

/-!
# Verification of the Mini-1 record-store system

Shallow embedding of the two record-store implementations
(`src/implementations/VectorDataSource.cpp` and
`src/implementations/MapDataSource.cpp`) together with the shared record and
dictionary types of `src/utility/Records.h`, and proofs about the claims of
the natural-language specification.

Modelling conventions:
* CSV tokenizing is out of scope (a black box per the spec); ingestion is
  modelled as functions over the stream of rows a file yields, each row a
  `List String` of already-unquoted fields.
* C++ `double`/`float` values are modelled as exact rationals `ℚ`; the
  IEEE not-a-number marker is modelled as `Option ℚ` with `none` = NaN
  (NaN compares false under every ordering comparison, which is what the
  scans rely on).  Rounding of decimal literals and of `double → float`
  narrowing is not modelled; no claim depends on it.
* Machine-integer narrowing casts that appear in the source
  (`(int32_t)`, `(int16_t)`, `(uint16_t)`, `(uint8_t)`) are modelled with
  explicit two's-complement wraps.  Dictionary codes are modelled as `ℕ`;
  the `uint32_t`/`uint16_t` width of freshly assigned codes is not
  modelled (exact for stores with fewer than 2^16 distinct keys per
  category, far beyond anything the claims quantify over).
* `std::unordered_map<string, code>` together with its reverse-lookup
  vector is modelled as an insertion-ordered association list plus a name
  list; `std::vector`/`std::list` record storage both become `List`.
-/

namespace Mini1

/-- One CSV row: the ordered string fields the excluded CSV collaborator
delivers. -/
abbrev Row := List String

/-- The rows of one input file, in file order. -/
abbrev FileRows := List Row

/-! ## Numeric parsing models (`std::stoi` / `std::stoll` / `std::stod` / `atoi`)

The wrappers `to_int` / `to_ll` / `to_double` in both .cpp files reject the
empty string and catch all exceptions; the underlying C functions skip
leading whitespace, accept one optional sign and parse the longest numeric
prefix.  Hex, infinity and NaN spellings of `strtod` are not modelled; no
input of the claims uses them. -/

/-- `'0' ≤ c ≤ '9'`, the digit test both `looksLikeFireRow` copies use. -/
def isDig (c : Char) : Bool := 48 ≤ c.toNat && c.toNat ≤ 57

/-- C-locale `isspace`. -/
def isSpc (c : Char) : Bool := c.toNat = 32 || (9 ≤ c.toNat && c.toNat ≤ 13)

/-- Numeric value of a digit character. -/
def digVal (c : Char) : ℕ := c.toNat - 48

/-- Consume a maximal digit run, returning (value, number of digits, rest). -/
def readDigits : List Char → ℕ → ℕ → ℕ × ℕ × List Char
  | [], acc, n => (acc, n, [])
  | c :: cs, acc, n =>
    if isDig c then readDigits cs (acc * 10 + digVal c) (n + 1) else (acc, n, c :: cs)

/-- Consume one optional sign, returning (negative?, rest). -/
def readSign : List Char → Bool × List Char
  | '-' :: cs => (true, cs)
  | '+' :: cs => (false, cs)
  | cs => (false, cs)

/-- `strtol`-style integer scan: leading whitespace, optional sign, at least
one digit; returns the value and the unconsumed rest. -/
def scanInt (cs : List Char) : Option (ℤ × List Char) :=
  let cs1 := cs.dropWhile isSpc
  let sg := readSign cs1
  let dg := readDigits sg.2 0 0
  if dg.2.1 = 0 then none
  else some ((if sg.1 then -(dg.1 : ℤ) else (dg.1 : ℤ)), dg.2.2)

/-- `strtod`-style floating scan: leading whitespace, optional sign, digits
with an optional decimal point (at least one digit overall), optional
exponent part consumed only when well formed.  Returns the exact rational
value of the decimal literal — assembled as a numerator/denominator pair of
integers through `mkRat`, so the result is kernel-computable — and the
unconsumed rest. -/
def scanFloat (cs : List Char) : Option (ℚ × List Char) :=
  let cs1 := cs.dropWhile isSpc
  let sg := readSign cs1
  let ip := readDigits sg.2 0 0
  let hasDot : Bool := match ip.2.2 with | '.' :: _ => true | _ => false
  let fr : ℕ × ℕ × List Char :=
    match ip.2.2 with
    | '.' :: rest => readDigits rest 0 0
    | _ => (0, 0, ip.2.2)
  let fracDigits : ℕ := if hasDot then fr.2.1 else 0
  let rest1 := if hasDot then fr.2.2 else ip.2.2
  if ip.2.1 + fracDigits = 0 then none
  else
    let mantNum : ℤ := ((ip.1 * 10 ^ fracDigits + (if hasDot then fr.1 else 0) : ℕ) : ℤ)
    let sNum : ℤ := if sg.1 then -mantNum else mantNum
    match rest1 with
    | 'e' :: rest2 =>
      let esg := readSign rest2
      let edg := readDigits esg.2 0 0
      if edg.2.1 = 0 then some (mkRat sNum (10 ^ fracDigits), rest1)
      else if esg.1 then some (mkRat sNum (10 ^ fracDigits * 10 ^ edg.1), edg.2.2)
      else some (mkRat (sNum * ((10 ^ edg.1 : ℕ) : ℤ)) (10 ^ fracDigits), edg.2.2)
    | 'E' :: rest2 =>
      let esg := readSign rest2
      let edg := readDigits esg.2 0 0
      if edg.2.1 = 0 then some (mkRat sNum (10 ^ fracDigits), rest1)
      else if esg.1 then some (mkRat sNum (10 ^ fracDigits * 10 ^ edg.1), edg.2.2)
      else some (mkRat (sNum * ((10 ^ edg.1 : ℕ) : ℤ)) (10 ^ fracDigits), edg.2.2)
    | _ => some (mkRat sNum (10 ^ fracDigits), rest1)

/-- `VectorDataSource::to_int` / `MapDataSource::to_int` (identical): empty
string fails, otherwise `std::stoi` — whitespace, sign, digits; out of
`int` range throws, caught to failure. -/
def to_int (s : String) : Option ℤ :=
  if s.isEmpty then none
  else match scanInt s.toList with
    | none => none
    | some p =>
      if p.1 < -2147483648 ∨ 2147483647 < p.1 then none else some p.1

/-- `to_ll` (identical in both .cpp files): `std::stoll` wrapper. -/
def to_ll (s : String) : Option ℤ :=
  if s.isEmpty then none
  else match scanInt s.toList with
    | none => none
    | some p =>
      if p.1 < -9223372036854775808 ∨ 9223372036854775807 < p.1 then none else some p.1

/-- `to_double` (identical in both .cpp files): `std::stod` wrapper; the
overflow-to-exception case of `stod` is not modelled (rationals are exact). -/
def to_double (s : String) : Option ℚ :=
  if s.isEmpty then none
  else match scanFloat s.toList with
    | none => none
    | some p => some p.1

/-- `atoi`, as used by the static `to_int2` helper of both .cpp files: parses
the longest integer prefix, returning 0 when there is none. -/
def atoiM (s : String) : ℤ :=
  match scanInt s.toList with
  | none => 0
  | some p => p.1

/-- The `isnum` lambda of `looksLikeFireRow`: full `strtod` parse with an
end-pointer check, i.e. the whole string must be consumed. -/
def isnum (s : String) : Bool :=
  if s.isEmpty then false
  else match scanFloat s.toList with
    | some p => p.2.isEmpty
    | none => false

/-- `s[i]` on a `std::string`; callers guard the bound first. -/
def charAt (s : String) (i : ℕ) : Char := s.toList.getD i (Char.ofNat 0)

/-- `s.substr(pos, len)`. -/
def strSub (s : String) (pos len : ℕ) : String :=
  String.mk ((s.toList.drop pos).take len)

/-! ## Machine-integer wraps for the narrowing casts in the source -/

/-- `(uint16_t)` of a non-negative code. -/
def wrapU16 (n : ℕ) : ℕ := n % 65536

/-- `(uint8_t)` of an `int`. -/
def toU8 (v : ℤ) : ℕ := (Int.emod v 256).toNat

/-- `(int16_t)` of an `int`. -/
def toI16 (v : ℤ) : ℤ := Int.emod (v + 32768) 65536 - 32768

/-- `(int32_t)` of a `long long`. -/
def toI32 (v : ℤ) : ℤ := Int.emod (v + 2147483648) 4294967296 - 2147483648

/-! ## Shape predicates of the dataset sniffer (identical in both .cpp files) -/

/-- `isPopulationHeader`: first field equals the fixed sentinel label. -/
def isPopulationHeader (hdr : Row) : Bool :=
  !hdr.isEmpty && hdr.getD 0 ("") == ("Country Name")

/-- `looksLikeFireRow`: at least 12 fields, fields 0/1 fully numeric, field 2
at least 16 chars shaped `DDDD-DD-DD` then `T` or space then `HH:MM`. -/
def looksLikeFireRow (row : Row) : Bool :=
  if row.length < 12 then false
  else if !(isnum (row.getD 0 (""))) || !(isnum (row.getD 1 (""))) then false
  else
    let t := row.getD 2 ("")
    decide (t.length ≥ 16) && isDig (charAt t 0) && isDig (charAt t 1)
      && isDig (charAt t 2) && isDig (charAt t 3)
      && charAt t 4 == '-' && charAt t 7 == '-'
      && (charAt t 10 == 'T' || charAt t 10 == ' ') && charAt t 13 == ':'

/-! ## Calendar arithmetic (`timegm`) -/

/-- Days since 1970-01-01 of the civil date `(y, m, d)` (m ∈ 1..12, d free),
the standard days-from-civil computation `timegm` performs. -/
def daysFromCivil (y m d : ℤ) : ℤ :=
  let y1 := y - (if m ≤ 2 then 1 else 0)
  let era := Int.fdiv y1 400
  let yoe := y1 - era * 400
  let mp := Int.emod (m + 9) 12
  let doy := Int.fdiv (153 * mp + 2) 5 + d - 1
  let doe := yoe * 365 + Int.fdiv yoe 4 - Int.fdiv yoe 100 + doy
  era * 146097 + doe - 719468

/-- `timegm` on a `tm` with the given year, 0-based month (normalised with
floor semantics), day, hour, minute: seconds since the epoch. -/
def timegmModel (year mon0 day hh mm : ℤ) : ℤ :=
  let y := year + Int.fdiv mon0 12
  let m := Int.emod mon0 12 + 1
  daysFromCivil y m day * 86400 + hh * 3600 + mm * 60

/-- `parse_utc_minutes` (identical in both .cpp files): fixed-position
`atoi` field extraction, `timegm`, then C truncating division by 60. -/
def parse_utc_minutes (utc : String) : ℤ :=
  if utc.length < 16 then 0
  else
    let year := atoiM (strSub utc 0 4)
    let mon := atoiM (strSub utc 5 2)
    let day := atoiM (strSub utc 8 2)
    let hh := atoiM (strSub utc 11 2)
    let mm := atoiM (strSub utc 14 2)
    Int.tdiv (timegmModel year (mon - 1) day hh mm) 60

/-! ## Shared data model (`src/utility/Records.h`, `src/interfaces/IDataSource.h`) -/

/-- `Column` — the closed enumeration of logical column names, a superset
across both dataset kinds. -/
inductive Column where
  | Population | Year
  | Value | RawValue | AQI | Category | Latitude | Longitude | UTCMinutes
  | ParameterId | UnitId | SiteId | AgencyId | AqsId
  | WB_CountryNameId | WB_CountryCodeId
deriving DecidableEq, Repr

/-- The two dataset kinds (the private `Dataset` enum of both classes). -/
inductive Dataset where
  | Fire | WorldBank
deriving DecidableEq, Repr

/-- `RecordView::Type`. -/
inductive RVType where
  | Fire | WorldBank
deriving DecidableEq, Repr

/-- `FireRecord`: one Kind-B (sensor) observation.  `value`/`raw_value` are
`Option ℚ` with `none` as the NaN marker. -/
structure FireRecord where
  latitude : ℚ
  longitude : ℚ
  utc_minutes : ℤ
  parameter_id : ℕ
  unit_id : ℕ
  value : Option ℚ
  raw_value : Option ℚ
  aqi : ℤ
  category : ℕ
  site_id : ℕ
  agency_id : ℕ
  aqs_id : ℕ
  year : ℤ
  numericValue : ℚ
deriving DecidableEq, Repr

/-- `WorldBankRecord`: one Kind-A (indicator) data point. -/
structure WorldBankRecord where
  country_name_id : ℕ
  country_code_id : ℕ
  indicator_id : ℕ
  year : ℤ
  population : ℚ
  numericValue : ℚ
deriving DecidableEq, Repr

/-- `RecordView`: the read-only result projection, with the field defaults
of `Records.h`. -/
structure RecordView where
  type : RVType
  year : ℤ := 0
  numericValue : ℚ := 0
  latitude : ℚ := 0
  longitude : ℚ := 0
  value : Option ℚ := some 0
  aqi : ℤ := -999
  parameter_id : ℕ := 0
  unit_id : ℕ := 0
  site_id : ℕ := 0
  agency_id : ℕ := 0
  aqs_id : ℕ := 0
  population : ℚ := 0
  country_name_id : ℕ := 0
  country_code_id : ℕ := 0
deriving DecidableEq, Repr

/-- One category dictionary: the `unordered_map<string, code>` (modelled as
an insertion-ordered association list) together with its reverse-lookup
name vector from `Dictionaries`. -/
structure Dict where
  map : List (String × ℕ)
  names : List String
deriving DecidableEq, Repr

/-- `dict.find(key)`. -/
def Dict.find? (d : Dict) (k : String) : Option ℕ :=
  (d.map.find? (fun p => p.1 == k)).map (fun p => p.2)

/-- A default-constructed (empty) dictionary. -/
def emptyDict : Dict := ⟨[], []⟩

/-- `Dictionaries` of `Records.h`: the eight category dictionaries, each
modelled with its reverse-lookup vector attached. -/
structure Dictionaries where
  parameter_dict : Dict
  unit_dict : Dict
  site_dict : Dict
  agency_dict : Dict
  aqs_dict : Dict
  country_name_dict : Dict
  country_code_dict : Dict
  indicator_dict : Dict
deriving DecidableEq, Repr

/-- A default-constructed `Dictionaries`. -/
def emptyDicts : Dictionaries :=
  ⟨emptyDict, emptyDict, emptyDict, emptyDict, emptyDict, emptyDict, emptyDict, emptyDict⟩

/-- `RecordView::getParameterName`-style reverse lookup used for the
dictionary round-trip: in-bounds index into the reverse table, else the
empty string. -/
def reverseLookup (names : List String) (code : ℕ) : String :=
  names.getD code ("")

/-- `std::min_element` with a strict comparator: keeps the first minimal
element (replaces the running best only on strict improvement). -/
def std_min_element {α : Type} (lt : α → α → Bool) : List α → Option α
  | [] => none
  | x :: xs => some (xs.foldl (fun b c => if lt c b then c else b) x)

/-- `std::max_element` with a strict comparator: keeps the first maximal
element (replaces the running best only when it compares less than the
candidate). -/
def std_max_element {α : Type} (lt : α → α → Bool) : List α → Option α
  | [] => none
  | x :: xs => some (xs.foldl (fun b c => if lt b c then c else b) x)

namespace VectorDataSource

/-! ### Struct-of-store `VectorDataSource` (`VectorDataSource.cpp`)

Record storage is `std::vector`, modelled as `List`. -/

/-- The `get_or_add_local` lambdas of `load_fire_data_thread_local` and
`load_worldbank_data_thread_local` (lines 221-227, 272-286): look the key
up, else insert it with code = current map size.  They do NOT update the
reverse-lookup name vectors (the member `dict_get_or_add`, which would,
is never called). -/
def getOrAddLocal (d : Dict) (k : String) : ℕ × Dict :=
  match d.find? k with
  | some i => (i, d)
  | none => (d.map.length, ⟨d.map ++ [(k, d.map.length)], d.names⟩)

/-- The body of the `while (csv.next(row))` loop of
`load_fire_data_thread_local`: parse one sensor row, returning the record
it appends (if any) and the updated dictionaries.  Rows that are skipped
(fewer than 12 fields, unparseable latitude/longitude) never touch the
dictionaries. -/
def processFireRow (dicts : Dictionaries) (row : Row) : Option FireRecord × Dictionaries :=
  if row.length < 12 then (none, dicts)
  else match to_double (row.getD 0 ("")), to_double (row.getD 1 ("")) with
    | some lat, some lon =>
      let utc := row.getD 2 ("")
      let utcMinutes := parse_utc_minutes utc
      let p1 := getOrAddLocal dicts.parameter_dict (row.getD 3 (""))
      let dicts1 := { dicts with parameter_dict := p1.2 }
      let p2 := getOrAddLocal dicts1.unit_dict (row.getD 5 (""))
      let dicts2 := { dicts1 with unit_dict := p2.2 }
      let value : Option ℚ :=
        if (row.getD 4 ("")).isEmpty then none
        else match to_double (row.getD 4 ("")) with
          | some v => if v ≠ (-999 : ℚ) then some v else none
          | none => none
      let raw : Option ℚ :=
        if (row.getD 6 ("")).isEmpty then none
        else match to_double (row.getD 6 ("")) with
          | some v => if v ≠ (-999 : ℚ) then some v else none
          | none => none
      let aqi : ℤ :=
        if (row.getD 7 ("")).isEmpty then -999
        else match to_int (row.getD 7 ("")) with
          | some v => v
          | none => -999
      let cat : ℕ :=
        if (row.getD 8 ("")).isEmpty then 0
        else match to_int (row.getD 8 ("")) with
          | some v => toU8 v
          | none => 0
      let p3 := getOrAddLocal dicts2.site_dict (row.getD 9 (""))
      let dicts3 := { dicts2 with site_dict := p3.2 }
      let p4 := getOrAddLocal dicts3.agency_dict (row.getD 10 (""))
      let dicts4 := { dicts3 with agency_dict := p4.2 }
      let p5 := getOrAddLocal dicts4.aqs_dict (row.getD 11 (""))
      let dicts5 := { dicts4 with aqs_dict := p5.2 }
      let yr : ℤ :=
        if utc.length ≥ 4 then
          match to_int (strSub utc 0 4) with
          | some v => v
          | none => 0
        else 0
      let numericVal : ℚ := match value with | none => 0 | some v => v
      (some ⟨lat, lon, toI32 utcMinutes, wrapU16 p1.1, wrapU16 p2.1, value, raw,
             toI16 aqi, cat, p3.1, p4.1, p5.1, yr, numericVal⟩, dicts5)
    | _, _ => (none, dicts)

/-- `load_fire_data_thread_local`: fold `processFireRow` over the file's
rows (the parser is opened headerless), appending records in row order. -/
def loadFireInto : List Row → List FireRecord → Dictionaries → List FireRecord × Dictionaries
  | [], records, dicts => (records, dicts)
  | r :: rest, records, dicts =>
    match processFireRow dicts r with
    | (some rec, d) => loadFireInto rest (records ++ [rec]) d
    | (none, d) => loadFireInto rest records d

/-- The `for (size_t c=4; c<row.size(); ++c)` loop of
`load_worldbank_data_thread_local`, over the listed column indices:
qualifying year columns emit one record each, all other cells are skipped
individually. -/
def wbLoop (header row : Row) (cn cc ind : ℕ) : List ℕ → List WorldBankRecord
  | [] => []
  | c :: cs =>
    match header.get? c with
    | none => wbLoop header row cn cc ind cs
    | some h =>
      if h.length = 4 && isDig (charAt h 0) then
        match to_int h with
        | none => wbLoop header row cn cc ind cs
        | some yr =>
          if (row.getD c ("")).isEmpty then wbLoop header row cn cc ind cs
          else match to_double (row.getD c ("")) with
            | none => wbLoop header row cn cc ind cs
            | some v => ⟨cn, cc, ind, toI16 yr, v, v⟩ :: wbLoop header row cn cc ind cs
      else wbLoop header row cn cc ind cs

/-- One row of `load_worldbank_data_thread_local`: rows with fewer than 5
fields are skipped before any dictionary access; otherwise the three
dictionary codes are interned and the trailing year columns scanned. -/
def processWBRow (dicts : Dictionaries) (header row : Row) :
    List WorldBankRecord × Dictionaries :=
  if row.length < 5 then ([], dicts)
  else
    let p1 := getOrAddLocal dicts.country_name_dict (row.getD 0 (""))
    let dicts1 := { dicts with country_name_dict := p1.2 }
    let p2 := getOrAddLocal dicts1.country_code_dict (row.getD 1 (""))
    let dicts2 := { dicts1 with country_code_dict := p2.2 }
    let p3 := getOrAddLocal dicts2.indicator_dict
      ((row.getD 2 ("")) ++ ("|") ++ (row.getD 3 ("")))
    let dicts3 := { dicts2 with indicator_dict := p3.2 }
    (wbLoop header row p1.1 p2.1 p3.1 (List.range' 4 (row.length - 4)), dicts3)

/-- The row loop of `load_worldbank_data_thread_local`. -/
def loadWBInto (header : Row) :
    List Row → List WorldBankRecord → Dictionaries → List WorldBankRecord × Dictionaries
  | [], records, dicts => (records, dicts)
  | r :: rest, records, dicts =>
    let res := processWBRow dicts header r
    loadWBInto header rest (records ++ res.1) res.2

/-- `load_worldbank_data_thread_local` on a whole file: the parser is opened
with a header, so the first row is the header and the rest are data. -/
def loadWB (rows : FileRows) (records : List WorldBankRecord) (dicts : Dictionaries) :
    List WorldBankRecord × Dictionaries :=
  loadWBInto (rows.headD []) rows.tail records dicts

/-- The `load_single` lambda's dataset classification (constructor lines
47-67): the first physical row is consumed as a candidate header; a
recognised Kind-A header selects WorldBank, and otherwise BOTH branches of
the first-data-row test select Fire (lines 59-66: the else branch also
calls `load_fire_data`). -/
def classifySingle (rows : FileRows) : Dataset :=
  match rows.head? with
  | none => Dataset.Fire
  | some header =>
    if isPopulationHeader header then Dataset.WorldBank
    else match rows.tail.head? with
      | some firstRow => if looksLikeFireRow firstRow then Dataset.Fire else Dataset.Fire
      | none => Dataset.Fire

/-- The directory walk's one-time dataset detection (constructor lines
86-98): candidate header from the first .csv file; non-Kind-A header falls
back to testing the next physical row, defaulting to WorldBank. -/
def classifyDir (files : List FileRows) : Dataset :=
  match files.head? with
  | none => Dataset.WorldBank
  | some rows =>
    match rows.head? with
    | none => Dataset.WorldBank
    | some header =>
      if isPopulationHeader header then Dataset.WorldBank
      else match rows.tail.head? with
        | some r => if looksLikeFireRow r then Dataset.Fire else Dataset.WorldBank
        | none => Dataset.WorldBank

/-- The populated state of one `VectorDataSource`. -/
structure Store where
  dataset : Dataset
  fire_records : List FireRecord := []
  worldbank_records : List WorldBankRecord := []
  dictionaries : Dictionaries := emptyDicts
deriving DecidableEq, Repr

/-- The single-file constructor path: classify, then re-read the whole file
through the matching loader (`load_fire_data` re-opens headerless and
ingests every row; `load_worldbank_data` re-opens with the header). -/
def buildSingle (rows : FileRows) : Store :=
  match classifySingle rows with
  | Dataset.WorldBank =>
    let res := loadWB rows [] emptyDicts
    { dataset := Dataset.WorldBank, worldbank_records := res.1, dictionaries := res.2 }
  | Dataset.Fire =>
    let res := loadFireInto rows [] emptyDicts
    { dataset := Dataset.Fire, fire_records := res.1, dictionaries := res.2 }

/-- `fire_to_view`. -/
def fireToView (r : FireRecord) : RecordView :=
  { type := RVType.Fire, year := r.year, numericValue := r.numericValue,
    latitude := r.latitude, longitude := r.longitude, value := r.value,
    aqi := r.aqi, parameter_id := r.parameter_id, unit_id := r.unit_id,
    site_id := r.site_id, agency_id := r.agency_id, aqs_id := r.aqs_id }

/-- `worldbank_to_view`. -/
def worldbankToView (r : WorldBankRecord) : RecordView :=
  { type := RVType.WorldBank, year := r.year, numericValue := r.numericValue,
    population := r.population, country_name_id := r.country_name_id,
    country_code_id := r.country_code_id }

/-- The Fire arm of `VectorDataSource::findByRange` (the inner switch of
lines 337-459): each case parses both bounds with the column's parser,
fails closed on parse failure or inverted bounds, and filters with an
inclusive comparison; unlisted columns hit `default:` and return empty. -/
def findByRangeFire (records : List FireRecord) (col : Column) (loS hiS : String) :
    List RecordView :=
  match col with
  | Column.Value =>
    match to_double loS, to_double hiS with
    | some lo, some hi =>
      if lo > hi then []
      else (records.filter
        (fun r => decide (lo ≤ r.numericValue ∧ r.numericValue ≤ hi))).map fireToView
    | _, _ => []
  | Column.Latitude =>
    match to_double loS, to_double hiS with
    | some lo, some hi =>
      if lo > hi then []
      else (records.filter
        (fun r => decide (lo ≤ r.latitude ∧ r.latitude ≤ hi))).map fireToView
    | _, _ => []
  | Column.Longitude =>
    match to_double loS, to_double hiS with
    | some lo, some hi =>
      if lo > hi then []
      else (records.filter
        (fun r => decide (lo ≤ r.longitude ∧ r.longitude ≤ hi))).map fireToView
    | _, _ => []
  | Column.Year =>
    match to_int loS, to_int hiS with
    | some lo, some hi =>
      if lo > hi then []
      else (records.filter
        (fun r => decide (lo ≤ r.year ∧ r.year ≤ hi))).map fireToView
    | _, _ => []
  | Column.RawValue =>
    match to_double loS, to_double hiS with
    | some lo, some hi =>
      if lo > hi then []
      else (records.filter
        (fun r => match r.raw_value with
            | some v => decide (lo ≤ v ∧ v ≤ hi)
            | none => false)).map fireToView
    | _, _ => []
  | Column.AQI =>
    match to_int loS, to_int hiS with
    | some lo, some hi =>
      if lo > hi then []
      else (records.filter
        (fun r => decide (lo ≤ r.aqi ∧ r.aqi ≤ hi))).map fireToView
    | _, _ => []
  | Column.Category =>
    match to_int loS, to_int hiS with
    | some lo, some hi =>
      if lo > hi then []
      else (records.filter
        (fun r => decide (lo ≤ (r.category : ℤ) ∧ (r.category : ℤ) ≤ hi))).map fireToView
    | _, _ => []
  | Column.UTCMinutes =>
    match to_ll loS, to_ll hiS with
    | some lo, some hi =>
      if lo > hi then []
      else (records.filter
        (fun r => decide (lo ≤ r.utc_minutes ∧ r.utc_minutes ≤ hi))).map fireToView
    | _, _ => []
  | Column.ParameterId =>
    match to_ll loS, to_ll hiS with
    | some lo, some hi =>
      if lo > hi then []
      else (records.filter
        (fun r => decide (lo ≤ (r.parameter_id : ℤ) ∧ (r.parameter_id : ℤ) ≤ hi))).map fireToView
    | _, _ => []
  | Column.UnitId =>
    match to_ll loS, to_ll hiS with
    | some lo, some hi =>
      if lo > hi then []
      else (records.filter
        (fun r => decide (lo ≤ (r.unit_id : ℤ) ∧ (r.unit_id : ℤ) ≤ hi))).map fireToView
    | _, _ => []
  | Column.SiteId =>
    match to_ll loS, to_ll hiS with
    | some lo, some hi =>
      if lo > hi then []
      else (records.filter
        (fun r => decide (lo ≤ (r.site_id : ℤ) ∧ (r.site_id : ℤ) ≤ hi))).map fireToView
    | _, _ => []
  | Column.AgencyId =>
    match to_ll loS, to_ll hiS with
    | some lo, some hi =>
      if lo > hi then []
      else (records.filter
        (fun r => decide (lo ≤ (r.agency_id : ℤ) ∧ (r.agency_id : ℤ) ≤ hi))).map fireToView
    | _, _ => []
  | Column.AqsId =>
    match to_ll loS, to_ll hiS with
    | some lo, some hi =>
      if lo > hi then []
      else (records.filter
        (fun r => decide (lo ≤ (r.aqs_id : ℤ) ∧ (r.aqs_id : ℤ) ≤ hi))).map fireToView
    | _, _ => []
  | _ => []

/-- The WorldBank arm of `VectorDataSource::findByRange`
(lines 460-501). -/
def findByRangeWB (records : List WorldBankRecord) (col : Column) (loS hiS : String) :
    List RecordView :=
  match col with
  | Column.Population =>
    match to_double loS, to_double hiS with
    | some lo, some hi =>
      if lo > hi then []
      else (records.filter
        (fun r => decide (lo ≤ r.population ∧ r.population ≤ hi))).map worldbankToView
    | _, _ => []
  | Column.Year =>
    match to_int loS, to_int hiS with
    | some lo, some hi =>
      if lo > hi then []
      else (records.filter
        (fun r => decide (lo ≤ r.year ∧ r.year ≤ hi))).map worldbankToView
    | _, _ => []
  | Column.WB_CountryNameId =>
    match to_ll loS, to_ll hiS with
    | some lo, some hi =>
      if lo > hi then []
      else (records.filter
        (fun r => decide (lo ≤ (r.country_name_id : ℤ) ∧ (r.country_name_id : ℤ) ≤ hi))).map worldbankToView
    | _, _ => []
  | Column.WB_CountryCodeId =>
    match to_ll loS, to_ll hiS with
    | some lo, some hi =>
      if lo > hi then []
      else (records.filter
        (fun r => decide (lo ≤ (r.country_code_id : ℤ) ∧ (r.country_code_id : ℤ) ≤ hi))).map worldbankToView
    | _, _ => []
  | _ => []

/-- `VectorDataSource::findByRange` (lines 334-505): dataset dispatch over
the two switch arms. -/
def findByRange (s : Store) (col : Column) (loS hiS : String) : List RecordView :=
  match s.dataset with
  | Dataset.Fire => findByRangeFire s.fire_records col loS hiS
  | Dataset.WorldBank => findByRangeWB s.worldbank_records col loS hiS

/-- `VectorDataSource::findMin`: `std::min_element` on `numericValue` over
the active record list; empty list yields no result. -/
def findMin (s : Store) : Option RecordView :=
  match s.dataset with
  | Dataset.Fire =>
    match std_min_element (fun a b => decide (a.numericValue < b.numericValue)) s.fire_records with
    | none => none
    | some r => some (fireToView r)
  | Dataset.WorldBank =>
    match std_min_element (fun a b => decide (a.numericValue < b.numericValue)) s.worldbank_records with
    | none => none
    | some r => some (worldbankToView r)

/-- `VectorDataSource::findMax`: `std::max_element` on `numericValue`. -/
def findMax (s : Store) : Option RecordView :=
  match s.dataset with
  | Dataset.Fire =>
    match std_max_element (fun a b => decide (a.numericValue < b.numericValue)) s.fire_records with
    | none => none
    | some r => some (fireToView r)
  | Dataset.WorldBank =>
    match std_max_element (fun a b => decide (a.numericValue < b.numericValue)) s.worldbank_records with
    | none => none
    | some r => some (worldbankToView r)

/-- `VectorDataSource::sumByYear`: accumulate `numericValue` over records
whose `year` equals the argument. -/
def sumByYear (s : Store) (year : ℤ) : ℚ :=
  match s.dataset with
  | Dataset.Fire =>
    s.fire_records.foldl (fun acc r => if r.year = year then acc + r.numericValue else acc) 0
  | Dataset.WorldBank =>
    s.worldbank_records.foldl (fun acc r => if r.year = year then acc + r.numericValue else acc) 0

/-- One category of `merge_dictionaries` (lines 550-625): for every key of
the source not present in the target, assign the target's next code and
append the key to the target's reverse table. -/
def mergeDict (target source : Dict) : Dict :=
  source.map.foldl
    (fun t p =>
      match t.find? p.1 with
      | some _ => t
      | none => ⟨t.map ++ [(p.1, t.map.length)], t.names ++ [p.1]⟩)
    target

/-- `merge_dictionaries`: fold every per-thread `Dictionaries` into the
target, category by category. -/
def mergeDictionaries (target : Dictionaries) (sources : List Dictionaries) : Dictionaries :=
  sources.foldl
    (fun t s =>
      { parameter_dict := mergeDict t.parameter_dict s.parameter_dict,
        unit_dict := mergeDict t.unit_dict s.unit_dict,
        site_dict := mergeDict t.site_dict s.site_dict,
        agency_dict := mergeDict t.agency_dict s.agency_dict,
        aqs_dict := mergeDict t.aqs_dict s.aqs_dict,
        country_name_dict := mergeDict t.country_name_dict s.country_name_dict,
        country_code_dict := mergeDict t.country_code_dict s.country_code_dict,
        indicator_dict := mergeDict t.indicator_dict s.indicator_dict })
    target

/-- One worker of the parallel fire directory load: its assigned files are
ingested in order into thread-local records and a thread-local dictionary
instance. -/
def workerFireLoad (files : List FileRows) : List FireRecord × Dictionaries :=
  files.foldl (fun acc f => loadFireInto f acc.1 acc.2) ([], emptyDicts)

/-- The Fire branch of the directory constructor (lines 118-134), with the
OpenMP assignment of files to threads given as the partition: per-worker
thread-local loads, then records concatenated worker by worker and the
dictionaries merged — the records themselves are never touched again. -/
def buildDirFire (partitions : List (List FileRows)) : Store :=
  let results := partitions.map workerFireLoad
  { dataset := Dataset.Fire,
    fire_records := (results.map Prod.fst).flatten,
    dictionaries := mergeDictionaries emptyDicts (results.map Prod.snd) }

/-- One worker of the parallel WorldBank directory load. -/
def workerWBLoad (files : List FileRows) : List WorldBankRecord × Dictionaries :=
  files.foldl (fun acc f => loadWB f acc.1 acc.2) ([], emptyDicts)

/-- The WorldBank branch of the directory constructor (lines 102-117). -/
def buildDirWB (partitions : List (List FileRows)) : Store :=
  let results := partitions.map workerWBLoad
  { dataset := Dataset.WorldBank,
    worldbank_records := (results.map Prod.fst).flatten,
    dictionaries := mergeDictionaries emptyDicts (results.map Prod.snd) }

end VectorDataSource

namespace MapDataSource

/-! ### Linked-row `MapDataSource` (`MapDataSource.cpp`)

Record storage is `std::list`, modelled as `List`.  The loading and query
logic mirrors `VectorDataSource.cpp` line for line except that every
dictionary access goes through the member `dict_get_or_add`, which also
appends freshly interned keys to the reverse-lookup name vectors. -/

/-- `MapDataSource::dict_get_or_add` (lines 109-147): look the key up, else
insert it with code = current map size AND push it onto the category's
reverse-lookup vector (the pointer comparison in the source always matches
the category of the dictionary passed in). -/
def dictGetOrAdd (d : Dict) (k : String) : ℕ × Dict :=
  match d.find? k with
  | some i => (i, d)
  | none => (d.map.length, ⟨d.map ++ [(k, d.map.length)], d.names ++ [k]⟩)

/-- The body of the row loop of `MapDataSource::load_fire_data`
(lines 170-206), identical to the Vector variant except for the dictionary
operation used. -/
def processFireRow (dicts : Dictionaries) (row : Row) : Option FireRecord × Dictionaries :=
  if row.length < 12 then (none, dicts)
  else match to_double (row.getD 0 ("")), to_double (row.getD 1 ("")) with
    | some lat, some lon =>
      let utc := row.getD 2 ("")
      let utcMinutes := parse_utc_minutes utc
      let p1 := dictGetOrAdd dicts.parameter_dict (row.getD 3 (""))
      let dicts1 := { dicts with parameter_dict := p1.2 }
      let p2 := dictGetOrAdd dicts1.unit_dict (row.getD 5 (""))
      let dicts2 := { dicts1 with unit_dict := p2.2 }
      let value : Option ℚ :=
        if (row.getD 4 ("")).isEmpty then none
        else match to_double (row.getD 4 ("")) with
          | some v => if v ≠ (-999 : ℚ) then some v else none
          | none => none
      let raw : Option ℚ :=
        if (row.getD 6 ("")).isEmpty then none
        else match to_double (row.getD 6 ("")) with
          | some v => if v ≠ (-999 : ℚ) then some v else none
          | none => none
      let aqi : ℤ :=
        if (row.getD 7 ("")).isEmpty then -999
        else match to_int (row.getD 7 ("")) with
          | some v => v
          | none => -999
      let cat : ℕ :=
        if (row.getD 8 ("")).isEmpty then 0
        else match to_int (row.getD 8 ("")) with
          | some v => toU8 v
          | none => 0
      let p3 := dictGetOrAdd dicts2.site_dict (row.getD 9 (""))
      let dicts3 := { dicts2 with site_dict := p3.2 }
      let p4 := dictGetOrAdd dicts3.agency_dict (row.getD 10 (""))
      let dicts4 := { dicts3 with agency_dict := p4.2 }
      let p5 := dictGetOrAdd dicts4.aqs_dict (row.getD 11 (""))
      let dicts5 := { dicts4 with aqs_dict := p5.2 }
      let yr : ℤ :=
        if utc.length ≥ 4 then
          match to_int (strSub utc 0 4) with
          | some v => v
          | none => 0
        else 0
      let numericVal : ℚ := match value with | none => 0 | some v => v
      (some ⟨lat, lon, toI32 utcMinutes, wrapU16 p1.1, wrapU16 p2.1, value, raw,
             toI16 aqi, cat, p3.1, p4.1, p5.1, yr, numericVal⟩, dicts5)
    | _, _ => (none, dicts)

/-- `MapDataSource::load_fire_data`: fold `processFireRow` over the rows. -/
def loadFireInto : List Row → List FireRecord → Dictionaries → List FireRecord × Dictionaries
  | [], records, dicts => (records, dicts)
  | r :: rest, records, dicts =>
    match processFireRow dicts r with
    | (some rec, d) => loadFireInto rest (records ++ [rec]) d
    | (none, d) => loadFireInto rest records d

/-- The trailing-column loop of `MapDataSource::load_worldbank_data`
(lines 225-233). -/
def wbLoop (header row : Row) (cn cc ind : ℕ) : List ℕ → List WorldBankRecord
  | [] => []
  | c :: cs =>
    match header.get? c with
    | none => wbLoop header row cn cc ind cs
    | some h =>
      if h.length = 4 && isDig (charAt h 0) then
        match to_int h with
        | none => wbLoop header row cn cc ind cs
        | some yr =>
          if (row.getD c ("")).isEmpty then wbLoop header row cn cc ind cs
          else match to_double (row.getD c ("")) with
            | none => wbLoop header row cn cc ind cs
            | some v => ⟨cn, cc, ind, toI16 yr, v, v⟩ :: wbLoop header row cn cc ind cs
      else wbLoop header row cn cc ind cs

/-- One row of `MapDataSource::load_worldbank_data`. -/
def processWBRow (dicts : Dictionaries) (header row : Row) :
    List WorldBankRecord × Dictionaries :=
  if row.length < 5 then ([], dicts)
  else
    let p1 := dictGetOrAdd dicts.country_name_dict (row.getD 0 (""))
    let dicts1 := { dicts with country_name_dict := p1.2 }
    let p2 := dictGetOrAdd dicts1.country_code_dict (row.getD 1 (""))
    let dicts2 := { dicts1 with country_code_dict := p2.2 }
    let p3 := dictGetOrAdd dicts2.indicator_dict
      ((row.getD 2 ("")) ++ ("|") ++ (row.getD 3 ("")))
    let dicts3 := { dicts2 with indicator_dict := p3.2 }
    (wbLoop header row p1.1 p2.1 p3.1 (List.range' 4 (row.length - 4)), dicts3)

/-- The row loop of `MapDataSource::load_worldbank_data`. -/
def loadWBInto (header : Row) :
    List Row → List WorldBankRecord → Dictionaries → List WorldBankRecord × Dictionaries
  | [], records, dicts => (records, dicts)
  | r :: rest, records, dicts =>
    let res := processWBRow dicts header r
    loadWBInto header rest (records ++ res.1) res.2

/-- `MapDataSource::load_worldbank_data` on a whole file. -/
def loadWB (rows : FileRows) (records : List WorldBankRecord) (dicts : Dictionaries) :
    List WorldBankRecord × Dictionaries :=
  loadWBInto (rows.headD []) rows.tail records dicts

/-- The `load_single` classification of `MapDataSource` (constructor lines
48-68), identical to the Vector variant: both branches after a
non-Kind-A header select Fire. -/
def classifySingle (rows : FileRows) : Dataset :=
  match rows.head? with
  | none => Dataset.Fire
  | some header =>
    if isPopulationHeader header then Dataset.WorldBank
    else match rows.tail.head? with
      | some firstRow => if looksLikeFireRow firstRow then Dataset.Fire else Dataset.Fire
      | none => Dataset.Fire

/-- The directory walk's one-time classification (constructor lines 83-95). -/
def classifyDir (files : List FileRows) : Dataset :=
  match files.head? with
  | none => Dataset.WorldBank
  | some rows =>
    match rows.head? with
    | none => Dataset.WorldBank
    | some header =>
      if isPopulationHeader header then Dataset.WorldBank
      else match rows.tail.head? with
        | some r => if looksLikeFireRow r then Dataset.Fire else Dataset.WorldBank
        | none => Dataset.WorldBank

/-- The populated state of one `MapDataSource`. -/
structure Store where
  dataset : Dataset
  fire_records : List FireRecord := []
  worldbank_records : List WorldBankRecord := []
  dictionaries : Dictionaries := emptyDicts
deriving DecidableEq, Repr

/-- The single-file constructor path of `MapDataSource`. -/
def buildSingle (rows : FileRows) : Store :=
  match classifySingle rows with
  | Dataset.WorldBank =>
    let res := loadWB rows [] emptyDicts
    { dataset := Dataset.WorldBank, worldbank_records := res.1, dictionaries := res.2 }
  | Dataset.Fire =>
    let res := loadFireInto rows [] emptyDicts
    { dataset := Dataset.Fire, fire_records := res.1, dictionaries := res.2 }

/-- The Fire case of `MapDataSource`'s directory constructor loop
(constructor lines 97-101): the files are ingested strictly sequentially,
and every `load_fire_data` call interns through `dict_get_or_add` into the
single shared member dictionaries, so keys first seen in later files
receive globally sequential codes — there is no thread-local stage. -/
def buildDirFire (files : List FileRows) : Store :=
  let res := files.foldl (fun acc f => loadFireInto f acc.1 acc.2) ([], emptyDicts)
  { dataset := Dataset.Fire, fire_records := res.1, dictionaries := res.2 }

/-- `MapDataSource::fire_to_view`. -/
def fireToView (r : FireRecord) : RecordView :=
  { type := RVType.Fire, year := r.year, numericValue := r.numericValue,
    latitude := r.latitude, longitude := r.longitude, value := r.value,
    aqi := r.aqi, parameter_id := r.parameter_id, unit_id := r.unit_id,
    site_id := r.site_id, agency_id := r.agency_id, aqs_id := r.aqs_id }

/-- `MapDataSource::worldbank_to_view`. -/
def worldbankToView (r : WorldBankRecord) : RecordView :=
  { type := RVType.WorldBank, year := r.year, numericValue := r.numericValue,
    population := r.population, country_name_id := r.country_name_id,
    country_code_id := r.country_code_id }

/-- The Fire arm of `MapDataSource::findByRange` (lines 270-392),
line-for-line the same switch as the Vector variant. -/
def findByRangeFire (records : List FireRecord) (col : Column) (loS hiS : String) :
    List RecordView :=
  match col with
  | Column.Value =>
    match to_double loS, to_double hiS with
    | some lo, some hi =>
      if lo > hi then []
      else (records.filter
        (fun r => decide (lo ≤ r.numericValue ∧ r.numericValue ≤ hi))).map fireToView
    | _, _ => []
  | Column.Latitude =>
    match to_double loS, to_double hiS with
    | some lo, some hi =>
      if lo > hi then []
      else (records.filter
        (fun r => decide (lo ≤ r.latitude ∧ r.latitude ≤ hi))).map fireToView
    | _, _ => []
  | Column.Longitude =>
    match to_double loS, to_double hiS with
    | some lo, some hi =>
      if lo > hi then []
      else (records.filter
        (fun r => decide (lo ≤ r.longitude ∧ r.longitude ≤ hi))).map fireToView
    | _, _ => []
  | Column.Year =>
    match to_int loS, to_int hiS with
    | some lo, some hi =>
      if lo > hi then []
      else (records.filter
        (fun r => decide (lo ≤ r.year ∧ r.year ≤ hi))).map fireToView
    | _, _ => []
  | Column.RawValue =>
    match to_double loS, to_double hiS with
    | some lo, some hi =>
      if lo > hi then []
      else (records.filter
        (fun r => match r.raw_value with
            | some v => decide (lo ≤ v ∧ v ≤ hi)
            | none => false)).map fireToView
    | _, _ => []
  | Column.AQI =>
    match to_int loS, to_int hiS with
    | some lo, some hi =>
      if lo > hi then []
      else (records.filter
        (fun r => decide (lo ≤ r.aqi ∧ r.aqi ≤ hi))).map fireToView
    | _, _ => []
  | Column.Category =>
    match to_int loS, to_int hiS with
    | some lo, some hi =>
      if lo > hi then []
      else (records.filter
        (fun r => decide (lo ≤ (r.category : ℤ) ∧ (r.category : ℤ) ≤ hi))).map fireToView
    | _, _ => []
  | Column.UTCMinutes =>
    match to_ll loS, to_ll hiS with
    | some lo, some hi =>
      if lo > hi then []
      else (records.filter
        (fun r => decide (lo ≤ r.utc_minutes ∧ r.utc_minutes ≤ hi))).map fireToView
    | _, _ => []
  | Column.ParameterId =>
    match to_ll loS, to_ll hiS with
    | some lo, some hi =>
      if lo > hi then []
      else (records.filter
        (fun r => decide (lo ≤ (r.parameter_id : ℤ) ∧ (r.parameter_id : ℤ) ≤ hi))).map fireToView
    | _, _ => []
  | Column.UnitId =>
    match to_ll loS, to_ll hiS with
    | some lo, some hi =>
      if lo > hi then []
      else (records.filter
        (fun r => decide (lo ≤ (r.unit_id : ℤ) ∧ (r.unit_id : ℤ) ≤ hi))).map fireToView
    | _, _ => []
  | Column.SiteId =>
    match to_ll loS, to_ll hiS with
    | some lo, some hi =>
      if lo > hi then []
      else (records.filter
        (fun r => decide (lo ≤ (r.site_id : ℤ) ∧ (r.site_id : ℤ) ≤ hi))).map fireToView
    | _, _ => []
  | Column.AgencyId =>
    match to_ll loS, to_ll hiS with
    | some lo, some hi =>
      if lo > hi then []
      else (records.filter
        (fun r => decide (lo ≤ (r.agency_id : ℤ) ∧ (r.agency_id : ℤ) ≤ hi))).map fireToView
    | _, _ => []
  | Column.AqsId =>
    match to_ll loS, to_ll hiS with
    | some lo, some hi =>
      if lo > hi then []
      else (records.filter
        (fun r => decide (lo ≤ (r.aqs_id : ℤ) ∧ (r.aqs_id : ℤ) ≤ hi))).map fireToView
    | _, _ => []
  | _ => []

/-- The WorldBank arm of `MapDataSource::findByRange` (lines 393-434). -/
def findByRangeWB (records : List WorldBankRecord) (col : Column) (loS hiS : String) :
    List RecordView :=
  match col with
  | Column.Population =>
    match to_double loS, to_double hiS with
    | some lo, some hi =>
      if lo > hi then []
      else (records.filter
        (fun r => decide (lo ≤ r.population ∧ r.population ≤ hi))).map worldbankToView
    | _, _ => []
  | Column.Year =>
    match to_int loS, to_int hiS with
    | some lo, some hi =>
      if lo > hi then []
      else (records.filter
        (fun r => decide (lo ≤ r.year ∧ r.year ≤ hi))).map worldbankToView
    | _, _ => []
  | Column.WB_CountryNameId =>
    match to_ll loS, to_ll hiS with
    | some lo, some hi =>
      if lo > hi then []
      else (records.filter
        (fun r => decide (lo ≤ (r.country_name_id : ℤ) ∧ (r.country_name_id : ℤ) ≤ hi))).map worldbankToView
    | _, _ => []
  | Column.WB_CountryCodeId =>
    match to_ll loS, to_ll hiS with
    | some lo, some hi =>
      if lo > hi then []
      else (records.filter
        (fun r => decide (lo ≤ (r.country_code_id : ℤ) ∧ (r.country_code_id : ℤ) ≤ hi))).map worldbankToView
    | _, _ => []
  | _ => []

/-- `MapDataSource::findByRange` (lines 267-438). -/
def findByRange (s : Store) (col : Column) (loS hiS : String) : List RecordView :=
  match s.dataset with
  | Dataset.Fire => findByRangeFire s.fire_records col loS hiS
  | Dataset.WorldBank => findByRangeWB s.worldbank_records col loS hiS

/-- `MapDataSource::findMin`. -/
def findMin (s : Store) : Option RecordView :=
  match s.dataset with
  | Dataset.Fire =>
    match std_min_element (fun a b => decide (a.numericValue < b.numericValue)) s.fire_records with
    | none => none
    | some r => some (fireToView r)
  | Dataset.WorldBank =>
    match std_min_element (fun a b => decide (a.numericValue < b.numericValue)) s.worldbank_records with
    | none => none
    | some r => some (worldbankToView r)

/-- `MapDataSource::findMax`. -/
def findMax (s : Store) : Option RecordView :=
  match s.dataset with
  | Dataset.Fire =>
    match std_max_element (fun a b => decide (a.numericValue < b.numericValue)) s.fire_records with
    | none => none
    | some r => some (fireToView r)
  | Dataset.WorldBank =>
    match std_max_element (fun a b => decide (a.numericValue < b.numericValue)) s.worldbank_records with
    | none => none
    | some r => some (worldbankToView r)

/-- `MapDataSource::sumByYear`. -/
def sumByYear (s : Store) (year : ℤ) : ℚ :=
  match s.dataset with
  | Dataset.Fire =>
    s.fire_records.foldl (fun acc r => if r.year = year then acc + r.numericValue else acc) 0
  | Dataset.WorldBank =>
    s.worldbank_records.foldl (fun acc r => if r.year = year then acc + r.numericValue else acc) 0

end MapDataSource

/-! ## Proof-layer definitions -/

/-- The parse type each `findByRange` case dispatches to, read off the
(identical) switch statements of both implementations: `int` (`to_int`),
`long long` (`to_ll`) or `double` (`to_double`). -/
inductive ColType where
  | I | L | D
deriving DecidableEq

/-- The declared parse type of each column, as dispatched in `findByRange`
of both implementations. -/
def columnType : Column → ColType
  | Column.Population => ColType.D
  | Column.Year => ColType.I
  | Column.Value => ColType.D
  | Column.RawValue => ColType.D
  | Column.AQI => ColType.I
  | Column.Category => ColType.I
  | Column.Latitude => ColType.D
  | Column.Longitude => ColType.D
  | Column.UTCMinutes => ColType.L
  | Column.ParameterId => ColType.L
  | Column.UnitId => ColType.L
  | Column.SiteId => ColType.L
  | Column.AgencyId => ColType.L
  | Column.AqsId => ColType.L
  | Column.WB_CountryNameId => ColType.L
  | Column.WB_CountryCodeId => ColType.L

/-- The fail-closed guard of every `findByRange` case: true when either
bound fails to parse under the column's declared type or the parsed low
exceeds the parsed high. -/
def boundsFail (col : Column) (loS hiS : String) : Bool :=
  match columnType col with
  | ColType.D =>
    match to_double loS, to_double hiS with
    | some lo, some hi => decide (lo > hi)
    | _, _ => true
  | ColType.I =>
    match to_int loS, to_int hiS with
    | some lo, some hi => decide (lo > hi)
    | _, _ => true
  | ColType.L =>
    match to_ll loS, to_ll hiS with
    | some lo, some hi => decide (lo > hi)
    | _, _ => true

/-- Whether a column has a scan case for the given dataset kind (the
columns not listed fall into the `default:` branch of the switch). -/
def colSupported : Dataset → Column → Bool
  | Dataset.Fire, c =>
    match c with
    | Column.Population | Column.WB_CountryNameId | Column.WB_CountryCodeId => false
    | _ => true
  | Dataset.WorldBank, c =>
    match c with
    | Column.Population | Column.Year | Column.WB_CountryNameId | Column.WB_CountryCodeId => true
    | _ => false

/-- Reference recursion computing the first element with minimal key; used
to characterise `std::min_element`. -/
def minBy {α : Type} (f : α → ℚ) : List α → Option α
  | [] => none
  | x :: xs =>
    match minBy f xs with
    | none => some x
    | some m => if f x ≤ f m then some x else some m

/-- Reference recursion computing the first element with maximal key; used
to characterise `std::max_element`. -/
def maxBy {α : Type} (f : α → ℚ) : List α → Option α
  | [] => none
  | x :: xs =>
    match maxBy f xs with
    | none => some x
    | some m => if f m ≤ f x then some x else some m

/-- Well-formedness of one dictionary: the reverse table is exactly as long
as the map and every map entry's code indexes its own key in the reverse
table.  `MapDataSource::dict_get_or_add` maintains this invariant;
`VectorDataSource`'s load-path operation does not. -/
abbrev DictWF (d : Dict) : Prop :=
  d.names.length = d.map.length ∧
  ∀ p ∈ d.map, p.2 < d.names.length ∧ d.names.getD p.2 ("") = p.1

/-- The two implementations' dictionary states agree on every category map
(the reverse tables may differ: `VectorDataSource`'s load path never
fills them). -/
abbrev DictsMapsEq (a b : Dictionaries) : Prop :=
  a.parameter_dict.map = b.parameter_dict.map ∧
  a.unit_dict.map = b.unit_dict.map ∧
  a.site_dict.map = b.site_dict.map ∧
  a.agency_dict.map = b.agency_dict.map ∧
  a.aqs_dict.map = b.aqs_dict.map ∧
  a.country_name_dict.map = b.country_name_dict.map ∧
  a.country_code_dict.map = b.country_code_dict.map ∧
  a.indicator_dict.map = b.indicator_dict.map

/-! ### Concrete test inputs -/

/-- A Kind-B (sensor) row whose `value` text is the `-999` sentinel. -/
def fireRow999 : Row :=
  [("1.0"), ("2.0"), ("2023-01-01T00:00"), ("PM25"), ("-999"), ("UGM3"),
   ("3.5"), ("50"), ("1"), ("SITE"), ("AG"), ("840")]

/-- A Kind-B row with parameter key `PA` and `value` text `7`. -/
def fireRowPA : Row :=
  [("1.0"), ("2.0"), ("2023-01-01T00:00"), ("PA"), ("7"), ("UGM3"),
   ("7"), ("50"), ("1"), ("S1"), ("A1"), ("Q1")]

/-- A Kind-B row with parameter key `PB` and `value` text `9`. -/
def fireRowPB : Row :=
  [("3.0"), ("4.0"), ("2023-01-02T00:00"), ("PB"), ("9"), ("UGM3"),
   ("9"), ("40"), ("1"), ("S2"), ("A2"), ("Q2")]

/-- The Kind-A concrete scenario of the spec: two indicator rows, year 2000
value 10 and year 2001 value 20. -/
def kindAScenarioRows : FileRows :=
  [[("Country Name"), ("Country Code"), ("Indicator Name"), ("Indicator Code"), ("2000"), ("2001")],
   [("A"), ("AA"), ("Ind"), ("IC"), ("10"), ("")],
   [("B"), ("BB"), ("Ind"), ("IC"), (""), ("20")]]

/-! ## Helper lemmas -/

theorem foldl_filter_sum {α : Type} (p : α → Prop) [DecidablePred p] (f : α → ℚ) :
    ∀ (l : List α) (a : ℚ),
      l.foldl (fun acc r => if p r then acc + f r else acc) a
        = a + ((l.filter (fun r => decide (p r))).map f).sum := by
  intro l
  induction l with
  | nil => intro a; simp
  | cons x xs ih =>
    intro a
    by_cases h : p x
    · simp [h, ih, add_assoc]
    · simp [h, ih]

theorem foldl_minStep {α : Type} (f : α → ℚ) :
    ∀ (xs : List α) (x : α),
      xs.foldl (fun b c => if decide (f c < f b) then c else b) x
        = (match minBy f xs with
           | none => x
           | some m => if f m < f x then m else x) := by
  intro xs
  induction xs with
  | nil => intro x; rfl
  | cons y ys ih =>
    intro x
    rw [List.foldl_cons, ih]
    rcases h : minBy f ys with _ | m <;> simp only [minBy, h, decide_eq_true_eq] <;>
      first
        | rfl
        | (split_ifs <;>
            first
              | rfl
              | (exfalso; linarith)
              | (simp only []; split_ifs <;> first | rfl | (exfalso; linarith)))

theorem minBy_eq_none_iff {α : Type} (f : α → ℚ) (l : List α) :
    minBy f l = none ↔ l = [] := by
  cases l with
  | nil => simp [minBy]
  | cons x xs =>
    simp only [minBy]
    rcases hm : minBy f xs with _ | m <;> simp <;> split_ifs <;> simp

theorem minBy_spec {α : Type} (f : α → ℚ) :
    ∀ (l : List α) (m : α), minBy f l = some m →
      ∃ pre post, l = pre ++ m :: post
        ∧ (∀ a ∈ pre, f m < f a) ∧ (∀ a ∈ l, f m ≤ f a) := by
  intro l
  induction l with
  | nil => intro m h; simp [minBy] at h
  | cons x xs ih =>
    intro m h
    simp only [minBy] at h
    rcases hm : minBy f xs with _ | m₀ <;> simp only [hm] at h
    · have hxs : xs = [] := (minBy_eq_none_iff f xs).1 hm
      subst hxs
      obtain rfl : x = m := by simpa using h
      exact ⟨[], [], rfl, by simp, by simp⟩
    · obtain ⟨pre, post, heq, hpre, hall⟩ := ih m₀ hm
      split_ifs at h with hle
      · obtain rfl : x = m := by simpa using h
        refine ⟨[], xs, rfl, by simp, ?_⟩
        intro a ha
        rcases List.mem_cons.1 ha with rfl | ha'
        · exact le_refl _
        · exact le_trans hle (hall a ha')
      · obtain rfl : m₀ = m := by simpa using h
        refine ⟨x :: pre, post, by rw [heq, List.cons_append], ?_, ?_⟩
        · intro a ha
          rcases List.mem_cons.1 ha with rfl | ha'
          · exact not_le.1 hle
          · exact hpre a ha'
        · intro a ha
          rcases List.mem_cons.1 ha with rfl | ha'
          · exact le_of_lt (not_le.1 hle)
          · exact hall a ha'

theorem std_min_element_none {α : Type} (lt : α → α → Bool) (l : List α) :
    std_min_element lt l = none ↔ l = [] := by
  cases l <;> simp [std_min_element]

theorem std_min_element_key {α : Type} (f : α → ℚ) (l : List α) :
    std_min_element (fun a b => decide (f a < f b)) l = minBy f l := by
  cases l with
  | nil => rfl
  | cons x xs =>
    simp only [std_min_element, foldl_minStep]
    rcases hm : minBy f xs with _ | m
    · simp [minBy, hm]
    · simp only [minBy, hm]
      by_cases h1 : f m < f x
      · rw [if_pos h1, if_neg (by linarith : ¬ f x ≤ f m)]
      · rw [if_neg h1, if_pos (not_lt.1 h1)]

theorem foldl_maxStep {α : Type} (f : α → ℚ) :
    ∀ (xs : List α) (x : α),
      xs.foldl (fun b c => if decide (f b < f c) then c else b) x
        = (match maxBy f xs with
           | none => x
           | some m => if f x < f m then m else x) := by
  intro xs
  induction xs with
  | nil => intro x; rfl
  | cons y ys ih =>
    intro x
    rw [List.foldl_cons, ih]
    rcases h : maxBy f ys with _ | m <;> simp only [maxBy, h, decide_eq_true_eq] <;>
      first
        | rfl
        | (split_ifs <;>
            first
              | rfl
              | (exfalso; linarith)
              | (simp only []; split_ifs <;> first | rfl | (exfalso; linarith)))

theorem maxBy_eq_none_iff {α : Type} (f : α → ℚ) (l : List α) :
    maxBy f l = none ↔ l = [] := by
  cases l with
  | nil => simp [maxBy]
  | cons x xs =>
    simp only [maxBy]
    rcases hm : maxBy f xs with _ | m <;> simp <;> split_ifs <;> simp

theorem maxBy_spec {α : Type} (f : α → ℚ) :
    ∀ (l : List α) (m : α), maxBy f l = some m →
      ∃ pre post, l = pre ++ m :: post
        ∧ (∀ a ∈ pre, f a < f m) ∧ (∀ a ∈ l, f a ≤ f m) := by
  intro l
  induction l with
  | nil => intro m h; simp [maxBy] at h
  | cons x xs ih =>
    intro m h
    simp only [maxBy] at h
    rcases hm : maxBy f xs with _ | m₀ <;> simp only [hm] at h
    · have hxs : xs = [] := (maxBy_eq_none_iff f xs).1 hm
      subst hxs
      obtain rfl : x = m := by simpa using h
      exact ⟨[], [], rfl, by simp, by simp⟩
    · obtain ⟨pre, post, heq, hpre, hall⟩ := ih m₀ hm
      split_ifs at h with hle
      · obtain rfl : x = m := by simpa using h
        refine ⟨[], xs, rfl, by simp, ?_⟩
        intro a ha
        rcases List.mem_cons.1 ha with rfl | ha'
        · exact le_refl _
        · exact le_trans (hall a ha') hle
      · obtain rfl : m₀ = m := by simpa using h
        refine ⟨x :: pre, post, by rw [heq, List.cons_append], ?_, ?_⟩
        · intro a ha
          rcases List.mem_cons.1 ha with rfl | ha'
          · exact not_le.1 hle
          · exact hpre a ha'
        · intro a ha
          rcases List.mem_cons.1 ha with rfl | ha'
          · exact le_of_lt (not_le.1 hle)
          · exact hall a ha'

theorem std_max_element_none {α : Type} (lt : α → α → Bool) (l : List α) :
    std_max_element lt l = none ↔ l = [] := by
  cases l <;> simp [std_max_element]

theorem std_max_element_key {α : Type} (f : α → ℚ) (l : List α) :
    std_max_element (fun a b => decide (f a < f b)) l = maxBy f l := by
  cases l with
  | nil => rfl
  | cons x xs =>
    simp only [std_max_element, foldl_maxStep]
    rcases hm : maxBy f xs with _ | m
    · simp [maxBy, hm]
    · simp only [maxBy, hm]
      by_cases h1 : f x < f m
      · rw [if_pos h1, if_neg (by linarith : ¬ f m ≤ f x)]
      · rw [if_neg h1, if_pos (not_lt.1 h1)]

/-! ### Cross-implementation simulation -/

theorem Dict.find?_congr (d₁ d₂ : Dict) (h : d₁.map = d₂.map) (k : String) :
    d₁.find? k = d₂.find? k := by
  unfold Dict.find?
  rw [h]

theorem wbLoop_cross (header row : Row) (cn cc ind : ℕ) (cs : List ℕ) :
    VectorDataSource.wbLoop header row cn cc ind cs
      = MapDataSource.wbLoop header row cn cc ind cs := by
  induction cs with
  | nil => rfl
  | cons c cs ih =>
    simp only [VectorDataSource.wbLoop, MapDataSource.wbLoop, ih]

set_option maxHeartbeats 2000000 in
theorem processFireRow_sim (dV dM : Dictionaries) (row : Row) (h : DictsMapsEq dV dM) :
    (VectorDataSource.processFireRow dV row).1 = (MapDataSource.processFireRow dM row).1
    ∧ DictsMapsEq (VectorDataSource.processFireRow dV row).2
        (MapDataSource.processFireRow dM row).2 := by
  obtain ⟨vp, vu, vs, va, vq, vcn, vcc, vi⟩ := dV
  obtain ⟨mp, mu, ms, ma, mq, mcn, mcc, mi⟩ := dM
  obtain ⟨m1, m2, m3, m4, m5, m6, m7, m8⟩ := h
  simp only [] at m1 m2 m3 m4 m5 m6 m7 m8
  unfold VectorDataSource.processFireRow MapDataSource.processFireRow
  by_cases hlen : row.length < 12
  · constructor <;> simp [DictsMapsEq, hlen, m1, m2, m3, m4, m5, m6, m7, m8]
  · rcases e0 : to_double (row.getD 0 ("")) with _ | lat
    · constructor <;> simp [DictsMapsEq, hlen, e0, m1, m2, m3, m4, m5, m6, m7, m8]
    · rcases e1 : to_double (row.getD 1 ("")) with _ | lon
      · constructor <;> simp [DictsMapsEq, hlen, e0, e1, m1, m2, m3, m4, m5, m6, m7, m8]
      · rcases k1 : Dict.find? mp (row.getD 3 ("")) with _ | i1 <;>
        rcases k2 : Dict.find? mu (row.getD 5 ("")) with _ | i2 <;>
        rcases k3 : Dict.find? ms (row.getD 9 ("")) with _ | i3 <;>
        rcases k4 : Dict.find? ma (row.getD 10 ("")) with _ | i4 <;>
        rcases k5 : Dict.find? mq (row.getD 11 ("")) with _ | i5 <;>
        constructor <;>
        simp only [if_neg hlen, e0, e1, VectorDataSource.getOrAddLocal, MapDataSource.dictGetOrAdd,
          Dict.find?_congr vp mp m1, Dict.find?_congr vu mu m2, Dict.find?_congr vs ms m3,
          Dict.find?_congr va ma m4, Dict.find?_congr vq mq m5,
          k1, k2, k3, k4, k5, DictsMapsEq, m1, m2, m3, m4, m5, m6, m7, m8, and_self,
          and_true, true_and]

theorem loadFireInto_sim :
    ∀ (rows : List Row) (recs : List FireRecord) (dV dM : Dictionaries),
      DictsMapsEq dV dM →
      (VectorDataSource.loadFireInto rows recs dV).1
        = (MapDataSource.loadFireInto rows recs dM).1
      ∧ DictsMapsEq (VectorDataSource.loadFireInto rows recs dV).2
          (MapDataSource.loadFireInto rows recs dM).2 := by
  intro rows
  induction rows with
  | nil => intro recs dV dM h; exact ⟨rfl, h⟩
  | cons r rest ih =>
    intro recs dV dM h
    obtain ⟨hfst, hsnd⟩ := processFireRow_sim dV dM r h
    rcases hV : VectorDataSource.processFireRow dV r with ⟨oV, dV'⟩
    rcases hM : MapDataSource.processFireRow dM r with ⟨oM, dM'⟩
    rw [hV, hM] at hfst hsnd
    simp only [] at hfst hsnd
    subst hfst
    simp only [VectorDataSource.loadFireInto, MapDataSource.loadFireInto, hV, hM]
    cases oV <;> exact ih _ _ _ hsnd

theorem processWBRow_sim (dV dM : Dictionaries) (header row : Row) (h : DictsMapsEq dV dM) :
    (VectorDataSource.processWBRow dV header row).1
      = (MapDataSource.processWBRow dM header row).1
    ∧ DictsMapsEq (VectorDataSource.processWBRow dV header row).2
        (MapDataSource.processWBRow dM header row).2 := by
  obtain ⟨vp, vu, vs, va, vq, vcn, vcc, vi⟩ := dV
  obtain ⟨mp, mu, ms, ma, mq, mcn, mcc, mi⟩ := dM
  obtain ⟨m1, m2, m3, m4, m5, m6, m7, m8⟩ := h
  simp only [] at m1 m2 m3 m4 m5 m6 m7 m8
  unfold VectorDataSource.processWBRow MapDataSource.processWBRow
  by_cases hlen : row.length < 5
  · constructor <;> simp [DictsMapsEq, hlen, m1, m2, m3, m4, m5, m6, m7, m8]
  · rcases k1 : Dict.find? mcn (row.getD 0 ("")) with _ | i1 <;>
    rcases k2 : Dict.find? mcc (row.getD 1 ("")) with _ | i2 <;>
    rcases k3 : Dict.find? mi ((row.getD 2 ("")) ++ ("|") ++ (row.getD 3 (""))) with _ | i3 <;>
    constructor <;>
    simp only [if_neg hlen, VectorDataSource.getOrAddLocal, MapDataSource.dictGetOrAdd, wbLoop_cross,
      Dict.find?_congr vcn mcn m6, Dict.find?_congr vcc mcc m7, Dict.find?_congr vi mi m8,
      k1, k2, k3, DictsMapsEq, m1, m2, m3, m4, m5, m6, m7, m8, and_self, and_true, true_and]

theorem loadWBInto_sim (header : Row) :
    ∀ (rows : List Row) (recs : List WorldBankRecord) (dV dM : Dictionaries),
      DictsMapsEq dV dM →
      (VectorDataSource.loadWBInto header rows recs dV).1
        = (MapDataSource.loadWBInto header rows recs dM).1
      ∧ DictsMapsEq (VectorDataSource.loadWBInto header rows recs dV).2
          (MapDataSource.loadWBInto header rows recs dM).2 := by
  intro rows
  induction rows with
  | nil => intro recs dV dM h; exact ⟨rfl, h⟩
  | cons r rest ih =>
    intro recs dV dM h
    obtain ⟨hfst, hsnd⟩ := processWBRow_sim dV dM header r h
    simp only [VectorDataSource.loadWBInto, MapDataSource.loadWBInto, hfst]
    exact ih _ _ _ hsnd

theorem loadWB_sim (rows : FileRows) (recs : List WorldBankRecord) (dV dM : Dictionaries)
    (h : DictsMapsEq dV dM) :
    (VectorDataSource.loadWB rows recs dV).1 = (MapDataSource.loadWB rows recs dM).1
    ∧ DictsMapsEq (VectorDataSource.loadWB rows recs dV).2
        (MapDataSource.loadWB rows recs dM).2 := by
  unfold VectorDataSource.loadWB MapDataSource.loadWB
  exact loadWBInto_sim _ _ _ _ _ h

theorem emptyDicts_mapsEq : DictsMapsEq emptyDicts emptyDicts :=
  ⟨rfl, rfl, rfl, rfl, rfl, rfl, rfl, rfl⟩

theorem buildSingle_sim (rows : FileRows) :
    (VectorDataSource.buildSingle rows).dataset = (MapDataSource.buildSingle rows).dataset
    ∧ (VectorDataSource.buildSingle rows).fire_records
        = (MapDataSource.buildSingle rows).fire_records
    ∧ (VectorDataSource.buildSingle rows).worldbank_records
        = (MapDataSource.buildSingle rows).worldbank_records := by
  have hcls : MapDataSource.classifySingle rows = VectorDataSource.classifySingle rows := rfl
  unfold VectorDataSource.buildSingle MapDataSource.buildSingle
  rw [hcls]
  cases hc : VectorDataSource.classifySingle rows
  · exact ⟨rfl, (loadFireInto_sim rows [] emptyDicts emptyDicts emptyDicts_mapsEq).1, rfl⟩
  · exact ⟨rfl, rfl, (loadWB_sim rows [] emptyDicts emptyDicts emptyDicts_mapsEq).1⟩

theorem findByRange_cross (ds : Dataset) (fr : List FireRecord) (wr : List WorldBankRecord)
    (dctV dctM : Dictionaries) (col : Column) (loS hiS : String) :
    VectorDataSource.findByRange ⟨ds, fr, wr, dctV⟩ col loS hiS
      = MapDataSource.findByRange ⟨ds, fr, wr, dctM⟩ col loS hiS := by
  cases ds <;> cases col <;> rfl

theorem findMin_cross (ds : Dataset) (fr : List FireRecord) (wr : List WorldBankRecord)
    (dctV dctM : Dictionaries) :
    VectorDataSource.findMin ⟨ds, fr, wr, dctV⟩ = MapDataSource.findMin ⟨ds, fr, wr, dctM⟩ := by
  cases ds <;> rfl

theorem findMax_cross (ds : Dataset) (fr : List FireRecord) (wr : List WorldBankRecord)
    (dctV dctM : Dictionaries) :
    VectorDataSource.findMax ⟨ds, fr, wr, dctV⟩ = MapDataSource.findMax ⟨ds, fr, wr, dctM⟩ := by
  cases ds <;> rfl

theorem sumByYear_cross (ds : Dataset) (fr : List FireRecord) (wr : List WorldBankRecord)
    (dctV dctM : Dictionaries) (year : ℤ) :
    VectorDataSource.sumByYear ⟨ds, fr, wr, dctV⟩ year
      = MapDataSource.sumByYear ⟨ds, fr, wr, dctM⟩ year := by
  cases ds <;> rfl

theorem buildSingle_query_eq (rows : FileRows) (col : Column) (loS hiS : String) (year : ℤ) :
    VectorDataSource.findByRange (VectorDataSource.buildSingle rows) col loS hiS
      = MapDataSource.findByRange (MapDataSource.buildSingle rows) col loS hiS
    ∧ VectorDataSource.findMin (VectorDataSource.buildSingle rows)
      = MapDataSource.findMin (MapDataSource.buildSingle rows)
    ∧ VectorDataSource.findMax (VectorDataSource.buildSingle rows)
      = MapDataSource.findMax (MapDataSource.buildSingle rows)
    ∧ VectorDataSource.sumByYear (VectorDataSource.buildSingle rows) year
      = MapDataSource.sumByYear (MapDataSource.buildSingle rows) year := by
  obtain ⟨hds, hfr, hwr⟩ := buildSingle_sim rows
  rcases hV : VectorDataSource.buildSingle rows with ⟨dsV, frV, wrV, dV⟩
  rcases hM : MapDataSource.buildSingle rows with ⟨dsM, frM, wrM, dM⟩
  rw [hV, hM] at hds hfr hwr
  simp only [] at hds hfr hwr
  subst hds hfr hwr
  exact ⟨findByRange_cross _ _ _ _ _ _ _ _, findMin_cross _ _ _ _ _,
    findMax_cross _ _ _ _ _, sumByYear_cross _ _ _ _ _ _⟩

/-! ### Ingestion invariants -/

theorem VectorDataSource.processFireRow_numeric (d : Dictionaries) (row : Row)
    (rec : FireRecord) (d' : Dictionaries)
    (h : VectorDataSource.processFireRow d row = (some rec, d')) :
    rec.numericValue = (match rec.value with | none => 0 | some v => v) := by
  unfold VectorDataSource.processFireRow at h
  by_cases hlen : row.length < 12
  · simp [hlen] at h
  · simp only [if_neg hlen] at h
    rcases e0 : to_double (row.getD 0 ("")) with _ | lat <;> simp only [e0] at h
    · simp at h
    · rcases e1 : to_double (row.getD 1 ("")) with _ | lon <;> simp only [e1] at h
      · simp at h
      · rw [Prod.mk.injEq] at h
        obtain ⟨hr, -⟩ := h
        obtain rfl := Option.some.inj hr
        rfl

theorem MapDataSource.processFireRow_numericM (d : Dictionaries) (row : Row)
    (rec : FireRecord) (d' : Dictionaries)
    (h : MapDataSource.processFireRow d row = (some rec, d')) :
    rec.numericValue = (match rec.value with | none => 0 | some v => v) := by
  unfold MapDataSource.processFireRow at h
  by_cases hlen : row.length < 12
  · simp [hlen] at h
  · simp only [if_neg hlen] at h
    rcases e0 : to_double (row.getD 0 ("")) with _ | lat <;> simp only [e0] at h
    · simp at h
    · rcases e1 : to_double (row.getD 1 ("")) with _ | lon <;> simp only [e1] at h
      · simp at h
      · rw [Prod.mk.injEq] at h
        obtain ⟨hr, -⟩ := h
        obtain rfl := Option.some.inj hr
        rfl

theorem VectorDataSource.loadFireInto_numeric :
    ∀ (rows : List Row) (recs : List FireRecord) (d : Dictionaries),
      (∀ r ∈ recs, r.numericValue = (match r.value with | none => 0 | some v => v)) →
      ∀ r ∈ (VectorDataSource.loadFireInto rows recs d).1,
        r.numericValue = (match r.value with | none => 0 | some v => v) := by
  intro rows
  induction rows with
  | nil =>
    intro recs d h
    simpa [VectorDataSource.loadFireInto] using h
  | cons row rest ih =>
    intro recs d h
    rcases hp : VectorDataSource.processFireRow d row with ⟨o, d2⟩
    cases o with
    | none =>
      simp only [VectorDataSource.loadFireInto, hp]
      exact ih recs d2 h
    | some rec =>
      simp only [VectorDataSource.loadFireInto, hp]
      apply ih
      intro r hr
      rcases List.mem_append.1 hr with hr | hr
      · exact h r hr
      · obtain rfl := List.mem_singleton.1 hr
        exact VectorDataSource.processFireRow_numeric d row r d2 hp

theorem MapDataSource.loadFireInto_numericM :
    ∀ (rows : List Row) (recs : List FireRecord) (d : Dictionaries),
      (∀ r ∈ recs, r.numericValue = (match r.value with | none => 0 | some v => v)) →
      ∀ r ∈ (MapDataSource.loadFireInto rows recs d).1,
        r.numericValue = (match r.value with | none => 0 | some v => v) := by
  intro rows
  induction rows with
  | nil =>
    intro recs d h
    simpa [MapDataSource.loadFireInto] using h
  | cons row rest ih =>
    intro recs d h
    rcases hp : MapDataSource.processFireRow d row with ⟨o, d2⟩
    cases o with
    | none =>
      simp only [MapDataSource.loadFireInto, hp]
      exact ih recs d2 h
    | some rec =>
      simp only [MapDataSource.loadFireInto, hp]
      apply ih
      intro r hr
      rcases List.mem_append.1 hr with hr | hr
      · exact h r hr
      · obtain rfl := List.mem_singleton.1 hr
        exact MapDataSource.processFireRow_numericM d row r d2 hp

theorem VectorDataSource.wbLoop_pop (header row : Row) (cn cc ind : ℕ) :
    ∀ (cs : List ℕ) (r : WorldBankRecord),
      r ∈ VectorDataSource.wbLoop header row cn cc ind cs →
      r.numericValue = r.population := by
  intro cs
  induction cs with
  | nil => intro r hr; simp [VectorDataSource.wbLoop] at hr
  | cons c cs ih =>
    intro r hr
    simp only [VectorDataSource.wbLoop] at hr
    rcases hh : header.get? c with _ | hcell <;> simp only [hh] at hr
    · exact ih r hr
    · by_cases hc : (hcell.length = 4 && isDig (charAt hcell 0)) = true
      · rw [if_pos hc] at hr
        rcases hy : to_int hcell with _ | yr <;> simp only [hy] at hr
        · exact ih r hr
        · by_cases he : ((row.getD c ("")).isEmpty = true)
          · rw [if_pos he] at hr
            exact ih r hr
          · rw [if_neg he] at hr
            rcases hd : to_double (row.getD c ("")) with _ | v <;> simp only [hd] at hr
            · exact ih r hr
            · rcases List.mem_cons.1 hr with rfl | hr
              · rfl
              · exact ih r hr
      · rw [if_neg hc] at hr
        exact ih r hr

theorem MapDataSource.wbLoop_popM (header row : Row) (cn cc ind : ℕ) :
    ∀ (cs : List ℕ) (r : WorldBankRecord),
      r ∈ MapDataSource.wbLoop header row cn cc ind cs →
      r.numericValue = r.population := by
  intro cs r hr
  rw [← wbLoop_cross] at hr
  exact VectorDataSource.wbLoop_pop header row cn cc ind cs r hr

theorem VectorDataSource.processWBRow_pop (d : Dictionaries) (header row : Row) :
    ∀ r ∈ (VectorDataSource.processWBRow d header row).1, r.numericValue = r.population := by
  intro r hr
  unfold VectorDataSource.processWBRow at hr
  by_cases hlen : row.length < 5
  · simp [hlen] at hr
  · simp only [if_neg hlen] at hr
    exact VectorDataSource.wbLoop_pop _ _ _ _ _ _ r hr

theorem MapDataSource.processWBRow_popM (d : Dictionaries) (header row : Row) :
    ∀ r ∈ (MapDataSource.processWBRow d header row).1, r.numericValue = r.population := by
  intro r hr
  unfold MapDataSource.processWBRow at hr
  by_cases hlen : row.length < 5
  · simp [hlen] at hr
  · simp only [if_neg hlen] at hr
    rw [← wbLoop_cross] at hr
    exact VectorDataSource.wbLoop_pop _ _ _ _ _ _ r hr

theorem VectorDataSource.loadWBInto_pop (header : Row) :
    ∀ (rows : List Row) (recs : List WorldBankRecord) (d : Dictionaries),
      (∀ r ∈ recs, r.numericValue = r.population) →
      ∀ r ∈ (VectorDataSource.loadWBInto header rows recs d).1,
        r.numericValue = r.population := by
  intro rows
  induction rows with
  | nil =>
    intro recs d h
    simpa [VectorDataSource.loadWBInto] using h
  | cons row rest ih =>
    intro recs d h
    simp only [VectorDataSource.loadWBInto]
    apply ih
    intro r hr
    rcases List.mem_append.1 hr with hr | hr
    · exact h r hr
    · exact VectorDataSource.processWBRow_pop d header row r hr

theorem MapDataSource.loadWBInto_popM (header : Row) :
    ∀ (rows : List Row) (recs : List WorldBankRecord) (d : Dictionaries),
      (∀ r ∈ recs, r.numericValue = r.population) →
      ∀ r ∈ (MapDataSource.loadWBInto header rows recs d).1,
        r.numericValue = r.population := by
  intro rows
  induction rows with
  | nil =>
    intro recs d h
    simpa [MapDataSource.loadWBInto] using h
  | cons row rest ih =>
    intro recs d h
    simp only [MapDataSource.loadWBInto]
    apply ih
    intro r hr
    rcases List.mem_append.1 hr with hr | hr
    · exact h r hr
    · exact MapDataSource.processWBRow_popM d header row r hr

/-! ### Build characterisations -/

theorem VectorDataSource.buildSingle_fire_records (rows : FileRows) :
    (VectorDataSource.buildSingle rows).fire_records
      = (match VectorDataSource.classifySingle rows with
         | Dataset.Fire => (VectorDataSource.loadFireInto rows [] emptyDicts).1
         | Dataset.WorldBank => []) := by
  unfold VectorDataSource.buildSingle
  cases VectorDataSource.classifySingle rows <;> rfl

theorem VectorDataSource.buildSingle_wb_records (rows : FileRows) :
    (VectorDataSource.buildSingle rows).worldbank_records
      = (match VectorDataSource.classifySingle rows with
         | Dataset.Fire => []
         | Dataset.WorldBank => (VectorDataSource.loadWB rows [] emptyDicts).1) := by
  unfold VectorDataSource.buildSingle
  cases VectorDataSource.classifySingle rows <;> rfl

theorem MapDataSource.buildSingle_fire_recordsM (rows : FileRows) :
    (MapDataSource.buildSingle rows).fire_records
      = (match MapDataSource.classifySingle rows with
         | Dataset.Fire => (MapDataSource.loadFireInto rows [] emptyDicts).1
         | Dataset.WorldBank => []) := by
  unfold MapDataSource.buildSingle
  cases MapDataSource.classifySingle rows <;> rfl

theorem MapDataSource.buildSingle_wb_recordsM (rows : FileRows) :
    (MapDataSource.buildSingle rows).worldbank_records
      = (match MapDataSource.classifySingle rows with
         | Dataset.Fire => []
         | Dataset.WorldBank => (MapDataSource.loadWB rows [] emptyDicts).1) := by
  unfold MapDataSource.buildSingle
  cases MapDataSource.classifySingle rows <;> rfl

theorem VectorDataSource.buildSingle_fire_numeric (rows : FileRows) :
    ∀ r ∈ (VectorDataSource.buildSingle rows).fire_records,
      r.numericValue = (match r.value with | none => 0 | some v => v) := by
  rw [VectorDataSource.buildSingle_fire_records]
  cases VectorDataSource.classifySingle rows
  · exact VectorDataSource.loadFireInto_numeric rows [] emptyDicts (by simp)
  · simp

theorem MapDataSource.buildSingle_fire_numericM (rows : FileRows) :
    ∀ r ∈ (MapDataSource.buildSingle rows).fire_records,
      r.numericValue = (match r.value with | none => 0 | some v => v) := by
  rw [MapDataSource.buildSingle_fire_recordsM]
  cases MapDataSource.classifySingle rows
  · exact MapDataSource.loadFireInto_numericM rows [] emptyDicts (by simp)
  · simp

theorem VectorDataSource.buildSingle_wb_pop (rows : FileRows) :
    ∀ r ∈ (VectorDataSource.buildSingle rows).worldbank_records,
      r.numericValue = r.population := by
  rw [VectorDataSource.buildSingle_wb_records]
  cases VectorDataSource.classifySingle rows
  · simp
  · exact VectorDataSource.loadWBInto_pop _ _ [] emptyDicts (by simp)

theorem MapDataSource.buildSingle_wb_popM (rows : FileRows) :
    ∀ r ∈ (MapDataSource.buildSingle rows).worldbank_records,
      r.numericValue = r.population := by
  rw [MapDataSource.buildSingle_wb_recordsM]
  cases MapDataSource.classifySingle rows
  · simp
  · exact MapDataSource.loadWBInto_popM _ _ [] emptyDicts (by simp)

theorem VectorDataSource.buildDirFire_numeric (partitions : List (List FileRows)) :
    ∀ r ∈ (VectorDataSource.buildDirFire partitions).fire_records,
      r.numericValue = (match r.value with | none => 0 | some v => v) := by
  intro r hr
  simp only [VectorDataSource.buildDirFire] at hr
  rw [List.mem_flatten] at hr
  obtain ⟨l, hl, hrl⟩ := hr
  rw [List.mem_map] at hl
  obtain ⟨res, hres, rfl⟩ := hl
  rw [List.mem_map] at hres
  obtain ⟨files, hfiles, rfl⟩ := hres
  revert hrl
  have : ∀ (fs : List FileRows) (acc : List FireRecord × Dictionaries),
      (∀ a ∈ acc.1, a.numericValue = (match a.value with | none => 0 | some v => v)) →
      ∀ a ∈ (fs.foldl (fun acc f => VectorDataSource.loadFireInto f acc.1 acc.2) acc).1,
        a.numericValue = (match a.value with | none => 0 | some v => v) := by
    intro fs
    induction fs with
    | nil => intro acc h; simpa using h
    | cons f fs ih =>
      intro acc h
      simp only [List.foldl_cons]
      exact ih _ (VectorDataSource.loadFireInto_numeric f acc.1 acc.2 h)
  intro hrl
  exact this files ([], emptyDicts) (by simp) r hrl

theorem VectorDataSource.buildDirWB_pop (partitions : List (List FileRows)) :
    ∀ r ∈ (VectorDataSource.buildDirWB partitions).worldbank_records,
      r.numericValue = r.population := by
  intro r hr
  simp only [VectorDataSource.buildDirWB] at hr
  rw [List.mem_flatten] at hr
  obtain ⟨l, hl, hrl⟩ := hr
  rw [List.mem_map] at hl
  obtain ⟨res, hres, rfl⟩ := hl
  rw [List.mem_map] at hres
  obtain ⟨files, hfiles, rfl⟩ := hres
  revert hrl
  have : ∀ (fs : List FileRows) (acc : List WorldBankRecord × Dictionaries),
      (∀ a ∈ acc.1, a.numericValue = a.population) →
      ∀ a ∈ (fs.foldl (fun acc f => VectorDataSource.loadWB f acc.1 acc.2) acc).1,
        a.numericValue = a.population := by
    intro fs
    induction fs with
    | nil => intro acc h; simpa using h
    | cons f fs ih =>
      intro acc h
      simp only [List.foldl_cons]
      refine ih _ ?_
      intro a ha
      exact VectorDataSource.loadWBInto_pop _ _ _ _ h a ha
  intro hrl
  exact this files ([], emptyDicts) (by simp) r hrl

/-! ### Extremes helpers at the view level -/

theorem std_min_element_decomp {α : Type} (f : α → ℚ) (l : List α) (r : α)
    (hm : std_min_element (fun a b => decide (f a < f b)) l = some r) :
    ∃ pre post, l = pre ++ r :: post ∧ (∀ a ∈ l, f r ≤ f a) ∧ (∀ a ∈ pre, f r < f a) := by
  rw [std_min_element_key] at hm
  obtain ⟨pre, post, heq, hpre, hall⟩ := minBy_spec f l r hm
  exact ⟨pre, post, heq, hall, hpre⟩

theorem std_max_element_decomp {α : Type} (f : α → ℚ) (l : List α) (r : α)
    (hm : std_max_element (fun a b => decide (f a < f b)) l = some r) :
    ∃ pre post, l = pre ++ r :: post ∧ (∀ a ∈ l, f a ≤ f r) ∧ (∀ a ∈ pre, f a < f r) := by
  rw [std_max_element_key] at hm
  obtain ⟨pre, post, heq, hpre, hall⟩ := maxBy_spec f l r hm
  exact ⟨pre, post, heq, hall, hpre⟩

theorem VectorDataSource.findMin_spec (s : VectorDataSource.Store) :
    (VectorDataSource.findMin s = none
        ↔ (match s.dataset with
           | Dataset.Fire => s.fire_records = []
           | Dataset.WorldBank => s.worldbank_records = []))
    ∧ (∀ v, VectorDataSource.findMin s = some v → s.dataset = Dataset.Fire →
        ∃ r pre post, s.fire_records = pre ++ r :: post
          ∧ v = VectorDataSource.fireToView r
          ∧ (∀ a ∈ s.fire_records, r.numericValue ≤ a.numericValue)
          ∧ (∀ a ∈ pre, r.numericValue < a.numericValue))
    ∧ (∀ v, VectorDataSource.findMin s = some v → s.dataset = Dataset.WorldBank →
        ∃ r pre post, s.worldbank_records = pre ++ r :: post
          ∧ v = VectorDataSource.worldbankToView r
          ∧ (∀ a ∈ s.worldbank_records, r.numericValue ≤ a.numericValue)
          ∧ (∀ a ∈ pre, r.numericValue < a.numericValue)) := by
  obtain ⟨ds, fr, wr, dct⟩ := s
  refine ⟨?_, ?_, ?_⟩
  · cases ds <;> simp only [VectorDataSource.findMin]
    · rcases hm : std_min_element (fun a b => decide (a.numericValue < b.numericValue)) fr
        with _ | r <;> rw [hm] <;> simp only []
      · simpa using (std_min_element_none _ fr).1 hm
      · constructor
        · intro h
          simp at h
        · intro h
          subst h
          simp [std_min_element] at hm
    · rcases hm : std_min_element (fun a b => decide (a.numericValue < b.numericValue)) wr
        with _ | r <;> rw [hm] <;> simp only []
      · simpa using (std_min_element_none _ wr).1 hm
      · constructor
        · intro h
          simp at h
        · intro h
          subst h
          simp [std_min_element] at hm
  · intro v hv hds
    simp only [] at hds
    subst hds
    simp only [VectorDataSource.findMin] at hv
    rcases hm : std_min_element (fun a b => decide (a.numericValue < b.numericValue)) fr
      with _ | r
    · rw [hm] at hv
      simp at hv
    · rw [hm] at hv
      simp only [] at hv
      obtain rfl : VectorDataSource.fireToView r = v := Option.some.inj hv
      obtain ⟨pre, post, heq, hall, hpre⟩ := std_min_element_decomp FireRecord.numericValue fr r hm
      exact ⟨r, pre, post, heq, rfl, hall, hpre⟩
  · intro v hv hds
    simp only [] at hds
    subst hds
    simp only [VectorDataSource.findMin] at hv
    rcases hm : std_min_element (fun a b => decide (a.numericValue < b.numericValue)) wr
      with _ | r
    · rw [hm] at hv
      simp at hv
    · rw [hm] at hv
      simp only [] at hv
      obtain rfl : VectorDataSource.worldbankToView r = v := Option.some.inj hv
      obtain ⟨pre, post, heq, hall, hpre⟩ :=
        std_min_element_decomp WorldBankRecord.numericValue wr r hm
      exact ⟨r, pre, post, heq, rfl, hall, hpre⟩

theorem VectorDataSource.findMax_spec (s : VectorDataSource.Store) :
    (VectorDataSource.findMax s = none
        ↔ (match s.dataset with
           | Dataset.Fire => s.fire_records = []
           | Dataset.WorldBank => s.worldbank_records = []))
    ∧ (∀ v, VectorDataSource.findMax s = some v → s.dataset = Dataset.Fire →
        ∃ r pre post, s.fire_records = pre ++ r :: post
          ∧ v = VectorDataSource.fireToView r
          ∧ (∀ a ∈ s.fire_records, a.numericValue ≤ r.numericValue)
          ∧ (∀ a ∈ pre, a.numericValue < r.numericValue))
    ∧ (∀ v, VectorDataSource.findMax s = some v → s.dataset = Dataset.WorldBank →
        ∃ r pre post, s.worldbank_records = pre ++ r :: post
          ∧ v = VectorDataSource.worldbankToView r
          ∧ (∀ a ∈ s.worldbank_records, a.numericValue ≤ r.numericValue)
          ∧ (∀ a ∈ pre, a.numericValue < r.numericValue)) := by
  obtain ⟨ds, fr, wr, dct⟩ := s
  refine ⟨?_, ?_, ?_⟩
  · cases ds <;> simp only [VectorDataSource.findMax]
    · rcases hm : std_max_element (fun a b => decide (a.numericValue < b.numericValue)) fr
        with _ | r <;> rw [hm] <;> simp only []
      · simpa using (std_max_element_none _ fr).1 hm
      · constructor
        · intro h
          simp at h
        · intro h
          subst h
          simp [std_max_element] at hm
    · rcases hm : std_max_element (fun a b => decide (a.numericValue < b.numericValue)) wr
        with _ | r <;> rw [hm] <;> simp only []
      · simpa using (std_max_element_none _ wr).1 hm
      · constructor
        · intro h
          simp at h
        · intro h
          subst h
          simp [std_max_element] at hm
  · intro v hv hds
    simp only [] at hds
    subst hds
    simp only [VectorDataSource.findMax] at hv
    rcases hm : std_max_element (fun a b => decide (a.numericValue < b.numericValue)) fr
      with _ | r
    · rw [hm] at hv
      simp at hv
    · rw [hm] at hv
      simp only [] at hv
      obtain rfl : VectorDataSource.fireToView r = v := Option.some.inj hv
      obtain ⟨pre, post, heq, hall, hpre⟩ := std_max_element_decomp FireRecord.numericValue fr r hm
      exact ⟨r, pre, post, heq, rfl, hall, hpre⟩
  · intro v hv hds
    simp only [] at hds
    subst hds
    simp only [VectorDataSource.findMax] at hv
    rcases hm : std_max_element (fun a b => decide (a.numericValue < b.numericValue)) wr
      with _ | r
    · rw [hm] at hv
      simp at hv
    · rw [hm] at hv
      simp only [] at hv
      obtain rfl : VectorDataSource.worldbankToView r = v := Option.some.inj hv
      obtain ⟨pre, post, heq, hall, hpre⟩ :=
        std_max_element_decomp WorldBankRecord.numericValue wr r hm
      exact ⟨r, pre, post, heq, rfl, hall, hpre⟩

theorem MapDataSource.findMin_specM (s : MapDataSource.Store) :
    (MapDataSource.findMin s = none
        ↔ (match s.dataset with
           | Dataset.Fire => s.fire_records = []
           | Dataset.WorldBank => s.worldbank_records = []))
    ∧ (∀ v, MapDataSource.findMin s = some v → s.dataset = Dataset.Fire →
        ∃ r pre post, s.fire_records = pre ++ r :: post
          ∧ v = MapDataSource.fireToView r
          ∧ (∀ a ∈ s.fire_records, r.numericValue ≤ a.numericValue)
          ∧ (∀ a ∈ pre, r.numericValue < a.numericValue))
    ∧ (∀ v, MapDataSource.findMin s = some v → s.dataset = Dataset.WorldBank →
        ∃ r pre post, s.worldbank_records = pre ++ r :: post
          ∧ v = MapDataSource.worldbankToView r
          ∧ (∀ a ∈ s.worldbank_records, r.numericValue ≤ a.numericValue)
          ∧ (∀ a ∈ pre, r.numericValue < a.numericValue)) := by
  obtain ⟨ds, fr, wr, dct⟩ := s
  have hcross := (findMin_cross ds fr wr dct dct).symm
  have hfv : MapDataSource.fireToView = VectorDataSource.fireToView := rfl
  have hwv : MapDataSource.worldbankToView = VectorDataSource.worldbankToView := rfl
  rw [hcross, hfv, hwv]
  exact VectorDataSource.findMin_spec ⟨ds, fr, wr, dct⟩

theorem MapDataSource.findMax_specM (s : MapDataSource.Store) :
    (MapDataSource.findMax s = none
        ↔ (match s.dataset with
           | Dataset.Fire => s.fire_records = []
           | Dataset.WorldBank => s.worldbank_records = []))
    ∧ (∀ v, MapDataSource.findMax s = some v → s.dataset = Dataset.Fire →
        ∃ r pre post, s.fire_records = pre ++ r :: post
          ∧ v = MapDataSource.fireToView r
          ∧ (∀ a ∈ s.fire_records, a.numericValue ≤ r.numericValue)
          ∧ (∀ a ∈ pre, a.numericValue < r.numericValue))
    ∧ (∀ v, MapDataSource.findMax s = some v → s.dataset = Dataset.WorldBank →
        ∃ r pre post, s.worldbank_records = pre ++ r :: post
          ∧ v = MapDataSource.worldbankToView r
          ∧ (∀ a ∈ s.worldbank_records, a.numericValue ≤ r.numericValue)
          ∧ (∀ a ∈ pre, a.numericValue < r.numericValue)) := by
  obtain ⟨ds, fr, wr, dct⟩ := s
  have hcross := (findMax_cross ds fr wr dct dct).symm
  have hfv : MapDataSource.fireToView = VectorDataSource.fireToView := rfl
  have hwv : MapDataSource.worldbankToView = VectorDataSource.worldbankToView := rfl
  rw [hcross, hfv, hwv]
  exact VectorDataSource.findMax_spec ⟨ds, fr, wr, dct⟩

/-! ### sumByYear helpers -/

theorem VectorDataSource.sumByYear_spec (s : VectorDataSource.Store) (y : ℤ) :
    (s.dataset = Dataset.Fire →
      VectorDataSource.sumByYear s y
        = ((s.fire_records.filter (fun r => decide (r.year = y))).map
            FireRecord.numericValue).sum)
    ∧ (s.dataset = Dataset.WorldBank →
      VectorDataSource.sumByYear s y
        = ((s.worldbank_records.filter (fun r => decide (r.year = y))).map
            WorldBankRecord.numericValue).sum) := by
  obtain ⟨ds, fr, wr, dct⟩ := s
  constructor
  · intro h
    simp only [] at h
    subst h
    simp only [VectorDataSource.sumByYear]
    rw [foldl_filter_sum (fun r => r.year = y) FireRecord.numericValue fr 0, zero_add]
  · intro h
    simp only [] at h
    subst h
    simp only [VectorDataSource.sumByYear]
    rw [foldl_filter_sum (fun r => r.year = y) WorldBankRecord.numericValue wr 0, zero_add]

theorem MapDataSource.sumByYear_specM (s : MapDataSource.Store) (y : ℤ) :
    (s.dataset = Dataset.Fire →
      MapDataSource.sumByYear s y
        = ((s.fire_records.filter (fun r => decide (r.year = y))).map
            FireRecord.numericValue).sum)
    ∧ (s.dataset = Dataset.WorldBank →
      MapDataSource.sumByYear s y
        = ((s.worldbank_records.filter (fun r => decide (r.year = y))).map
            WorldBankRecord.numericValue).sum) := by
  obtain ⟨ds, fr, wr, dct⟩ := s
  have hcross := (sumByYear_cross ds fr wr dct dct y).symm
  rw [hcross]
  exact VectorDataSource.sumByYear_spec ⟨ds, fr, wr, dct⟩ y

theorem VectorDataSource.sumByYear_wbList (s : VectorDataSource.Store) (y : ℤ)
    (L : List WorldBankRecord) (hds : s.dataset = Dataset.WorldBank)
    (hL : s.worldbank_records = L) :
    VectorDataSource.sumByYear s y
      = L.foldl (fun acc r => if r.year = y then acc + r.numericValue else acc) 0 := by
  obtain ⟨ds, fr, wr, dct⟩ := s
  simp only [] at hds hL
  subst hds
  subst hL
  rfl

theorem MapDataSource.sumByYear_wbListM (s : MapDataSource.Store) (y : ℤ)
    (L : List WorldBankRecord) (hds : s.dataset = Dataset.WorldBank)
    (hL : s.worldbank_records = L) :
    MapDataSource.sumByYear s y
      = L.foldl (fun acc r => if r.year = y then acc + r.numericValue else acc) 0 := by
  obtain ⟨ds, fr, wr, dct⟩ := s
  simp only [] at hds hL
  subst hds
  subst hL
  rfl

/-! ## Claim theorems -/

/-- C1 (counterexample): the original claim quantifies over EVERY store
built from the same ingested rows, but on the directory path the two
implementations diverge.  A directory of the same two one-row fire files
(parameter keys `PA` then `PB`), ingested by Vector on two workers and by
Map sequentially, yields record lists agreeing on every raw field
(latitudes shown) — the same ingested rows — yet Vector's records keep
the provisional thread-local parameter codes `[0, 0]` (never remapped)
while Map's carry the globally sequential `[0, 1]`, so
`findByRange(ParameterId, "1", "1")` returns no row for Vector and one
row for Map: the results are not set-equal. -/
theorem claim_C1_counterexample :
    ((VectorDataSource.buildDirFire [[[fireRowPA]], [[fireRowPB]]]).fire_records.map
        FireRecord.latitude
      = (MapDataSource.buildDirFire [[fireRowPA], [fireRowPB]]).fire_records.map
        FireRecord.latitude)
    ∧ ((VectorDataSource.buildDirFire [[[fireRowPA]], [[fireRowPB]]]).fire_records.map
        FireRecord.parameter_id = [0, 0])
    ∧ ((MapDataSource.buildDirFire [[fireRowPA], [fireRowPB]]).fire_records.map
        FireRecord.parameter_id = [0, 1])
    ∧ VectorDataSource.findByRange (VectorDataSource.buildDirFire [[[fireRowPA]], [[fireRowPB]]])
        Column.ParameterId ("1") ("1") = []
    ∧ (MapDataSource.findByRange (MapDataSource.buildDirFire [[fireRowPA], [fireRowPB]])
        Column.ParameterId ("1") ("1")).length = 1 := by
  decide

/-- C1 (amended): for stores built by the single-file constructor from the
same ingested rows, the two layout implementations return equal result
lists for every `findByRange` call (hence in particular set-equal results
ignoring order) and identical `findMin`, `findMax` and `sumByYear` values;
on directory builds the equivalence fails, because Vector's parallel load
leaves provisional thread-local dictionary codes in the stored rows while
Map's sequential load assigns globally sequential codes. -/
theorem claim_C1_amended (rows : FileRows) (col : Column) (loS hiS : String) (year : ℤ) :
    VectorDataSource.findByRange (VectorDataSource.buildSingle rows) col loS hiS
      = MapDataSource.findByRange (MapDataSource.buildSingle rows) col loS hiS
    ∧ VectorDataSource.findMin (VectorDataSource.buildSingle rows)
      = MapDataSource.findMin (MapDataSource.buildSingle rows)
    ∧ VectorDataSource.findMax (VectorDataSource.buildSingle rows)
      = MapDataSource.findMax (MapDataSource.buildSingle rows)
    ∧ VectorDataSource.sumByYear (VectorDataSource.buildSingle rows) year
      = MapDataSource.sumByYear (MapDataSource.buildSingle rows) year :=
  buildSingle_query_eq rows col loS hiS year

/-- C2 (divergence exhibited): a Kind-B row with `value` text `-999` is
stored with the NaN marker (`value = none`) — but because the
`Column::Value` scan compares the zeroed `numericValue` rather than the
stored `value`, `findByRange(Value, "0", "100")` RETURNS that row (its
mapped `value` list is `[none]`), in both implementations, contradicting
the claim's required exclusion. -/
theorem claim_C2_bug :
    ((VectorDataSource.buildSingle [fireRow999]).fire_records.map FireRecord.value = [none])
    ∧ ((VectorDataSource.findByRange (VectorDataSource.buildSingle [fireRow999])
          Column.Value ("0") ("100")).map RecordView.value = [none])
    ∧ ((MapDataSource.findByRange (MapDataSource.buildSingle [fireRow999])
          Column.Value ("0") ("100")).map RecordView.value = [none]) := by
  decide

/-- C3 (divergence exhibited): two workers each ingest one fire file; both
assign their parameter key the thread-local code 0.  After
`merge_dictionaries` the merged dictionary maps `PA ↦ 0`, `PB ↦ 1` with
reverse table `[PA, PB]` (the merge itself is sequential-append, as the
claim says) — but the stored rows still carry the provisional codes
`[0, 0]`: the row for `PB` does not refer to the merged code 1, so the
required remap does not happen. -/
theorem claim_C3_bug :
    ((VectorDataSource.buildDirFire [[[fireRowPA]], [[fireRowPB]]]).fire_records.map
        FireRecord.parameter_id = [0, 0])
    ∧ (VectorDataSource.buildDirFire [[[fireRowPA]], [[fireRowPB]]]).dictionaries.parameter_dict.find?
        ("PB") = some 1
    ∧ (VectorDataSource.buildDirFire [[[fireRowPA]], [[fireRowPB]]]).dictionaries.parameter_dict.names
        = [("PA"), ("PB")] := by
  decide

/-- C9: in every freshly built store — single-file stores of both
implementations and the parallel directory stores — every stored record's
`numericValue` equals the per-kind derivation: Kind B `value` with NaN
mapped to 0, Kind A the `population` value. -/
theorem claim_C9 (rows : FileRows) (partitions : List (List FileRows)) :
    (∀ r ∈ (VectorDataSource.buildSingle rows).fire_records,
       r.numericValue = (match r.value with | none => 0 | some v => v))
    ∧ (∀ r ∈ (VectorDataSource.buildSingle rows).worldbank_records,
       r.numericValue = r.population)
    ∧ (∀ r ∈ (MapDataSource.buildSingle rows).fire_records,
       r.numericValue = (match r.value with | none => 0 | some v => v))
    ∧ (∀ r ∈ (MapDataSource.buildSingle rows).worldbank_records,
       r.numericValue = r.population)
    ∧ (∀ r ∈ (VectorDataSource.buildDirFire partitions).fire_records,
       r.numericValue = (match r.value with | none => 0 | some v => v))
    ∧ (∀ r ∈ (VectorDataSource.buildDirWB partitions).worldbank_records,
       r.numericValue = r.population) :=
  ⟨VectorDataSource.buildSingle_fire_numeric rows,
   VectorDataSource.buildSingle_wb_pop rows,
   MapDataSource.buildSingle_fire_numericM rows,
   MapDataSource.buildSingle_wb_popM rows,
   VectorDataSource.buildDirFire_numeric partitions,
   VectorDataSource.buildDirWB_pop partitions⟩

/-- Witness for C9: the concrete record ingested from `fireRow999` (whose
`value` is the NaN marker) is in the store and its `numericValue` is 0 as
the derivation demands. -/
theorem claim_C9_witness :
    (⟨1, 2, 27875520, 0, 0, none, some (mkRat 7 2), 50, 1, 0, 0, 0, 2023, 0⟩ : FireRecord)
      ∈ (VectorDataSource.buildSingle [fireRow999]).fire_records
    ∧ (⟨1, 2, 27875520, 0, 0, none, some (mkRat 7 2), 50, 1, 0, 0, 0, 2023, 0⟩ : FireRecord).numericValue
      = (match (⟨1, 2, 27875520, 0, 0, none, some (mkRat 7 2), 50, 1, 0, 0, 0, 2023, 0⟩ : FireRecord).value with
         | none => 0 | some v => v) :=
  ⟨by decide,
   (claim_C9 [fireRow999] []).1 _ (by decide)⟩

/-- C4 counterexample: in a `VectorDataSource` built from a single fire
file, the parameter key `PA` is interned with code 0 but the reverse table
stays empty (the load path's `get_or_add_local` never appends to it), so
the reverse lookup of the interned key's code does not return the key —
refuting the round-trip clause of the claim as stated "for every store". -/
theorem claim_C4_counterexample :
    (VectorDataSource.buildSingle [fireRowPA]).dictionaries.parameter_dict.find? ("PA") = some 0
    ∧ reverseLookup
        (VectorDataSource.buildSingle [fireRowPA]).dictionaries.parameter_dict.names 0
      ≠ ("PA") := by
  decide

/-- C4 (amended): for both implementations' dictionary operations,
interning the same key twice returns the same code, a fresh key is
assigned code = current size and appended (codes are dense, zero-based, in
first-seen order) and a seen key's code is returned with the dictionary
unchanged; `MapDataSource::dict_get_or_add` additionally appends the key
to the reverse table, so `reverseLookup(intern(k)) = k` holds there and
its well-formedness is preserved — while `VectorDataSource`'s load-path
operation leaves the reverse table untouched, which is why the round trip
fails for stores built through it (see the counterexample). -/
theorem claim_C4_amended (d : Dict) (k : String) (hwf : DictWF d) :
    ((VectorDataSource.getOrAddLocal ((VectorDataSource.getOrAddLocal d k).2) k).1
        = (VectorDataSource.getOrAddLocal d k).1)
    ∧ ((MapDataSource.dictGetOrAdd ((MapDataSource.dictGetOrAdd d k).2) k).1
        = (MapDataSource.dictGetOrAdd d k).1)
    ∧ (d.find? k = none →
        (VectorDataSource.getOrAddLocal d k).1 = d.map.length
        ∧ ((VectorDataSource.getOrAddLocal d k).2).map = d.map ++ [(k, d.map.length)]
        ∧ (MapDataSource.dictGetOrAdd d k).1 = d.map.length
        ∧ ((MapDataSource.dictGetOrAdd d k).2).map = d.map ++ [(k, d.map.length)])
    ∧ (∀ i, d.find? k = some i →
        (VectorDataSource.getOrAddLocal d k).1 = i
        ∧ (VectorDataSource.getOrAddLocal d k).2 = d
        ∧ (MapDataSource.dictGetOrAdd d k).1 = i
        ∧ (MapDataSource.dictGetOrAdd d k).2 = d)
    ∧ reverseLookup ((MapDataSource.dictGetOrAdd d k).2).names
        ((MapDataSource.dictGetOrAdd d k).1) = k
    ∧ DictWF ((MapDataSource.dictGetOrAdd d k).2)
    ∧ ((VectorDataSource.getOrAddLocal d k).2).names = d.names := by
  rcases hf : d.find? k with _ | i
  · have hm : d.map.find? (fun p => p.1 == k) = none := by
      unfold Dict.find? at hf
      rcases hx : d.map.find? (fun p => p.1 == k) with _ | p
      · exact hx
      · rw [hx] at hf
        simp at hf
    have hopV : VectorDataSource.getOrAddLocal d k
        = (d.map.length, ⟨d.map ++ [(k, d.map.length)], d.names⟩) := by
      simp [VectorDataSource.getOrAddLocal, hf]
    have hopM : MapDataSource.dictGetOrAdd d k
        = (d.map.length, ⟨d.map ++ [(k, d.map.length)], d.names ++ [k]⟩) := by
      simp [MapDataSource.dictGetOrAdd, hf]
    have hfind2 : ∀ nm : List String,
        Dict.find? ⟨d.map ++ [(k, d.map.length)], nm⟩ k = some d.map.length := by
      intro nm
      unfold Dict.find?
      simp [List.find?_append, hm]
    refine ⟨?_, ?_, fun _ => ⟨by rw [hopV], by rw [hopV], by rw [hopM], by rw [hopM]⟩,
      ?_, ?_, ?_, by rw [hopV]⟩
    · rw [hopV]
      simp [VectorDataSource.getOrAddLocal, hfind2]
    · rw [hopM]
      simp [MapDataSource.dictGetOrAdd, hfind2]
    · intro j hj
      simp [hf] at hj
    · rw [hopM]
      unfold reverseLookup
      simp only []
      rw [List.getD_append_right d.names [k] ("") d.map.length (le_of_eq hwf.1)]
      rw [hwf.1]
      simp
    · rw [hopM]
      refine ⟨by simp [hwf.1], ?_⟩
      intro p hp
      rcases List.mem_append.1 hp with hp | hp
      · obtain ⟨hlt, hgd⟩ := hwf.2 p hp
        refine ⟨by simp; omega, ?_⟩
        rw [List.getD_append d.names [k] ("") p.2 hlt]
        exact hgd
      · obtain rfl := List.mem_singleton.1 hp
        refine ⟨by simp [hwf.1], ?_⟩
        rw [← hwf.1, List.getD_append_right d.names [k] ("") d.names.length (le_refl _)]
        simp
  · have hopV : VectorDataSource.getOrAddLocal d k = (i, d) := by
      simp [VectorDataSource.getOrAddLocal, hf]
    have hopM : MapDataSource.dictGetOrAdd d k = (i, d) := by
      simp [MapDataSource.dictGetOrAdd, hf]
    have hrt : d.names.getD i ("") = k := by
      unfold Dict.find? at hf
      rcases hx : d.map.find? (fun p => p.1 == k) with _ | p
      · rw [hx] at hf
        cases hf
      · rw [hx] at hf
        simp only [Option.map_some'] at hf
        obtain rfl := Option.some.inj hf
        have hmem := List.mem_of_find?_eq_some hx
        have hkey : p.1 = k := by
          have := List.find?_some hx
          simpa using this
        obtain ⟨-, hgd⟩ := hwf.2 p hmem
        rw [hkey] at hgd
        exact hgd
    refine ⟨by simp [hopV], by simp [hopM], ?_, ?_, ?_, ?_, by rw [hopV]⟩
    · intro h
      simp [hf] at h
    · intro j hj
      obtain rfl := Option.some.inj hj
      exact ⟨by rw [hopV], by rw [hopV], by rw [hopM], by rw [hopM]⟩
    · rw [hopM]
      exact hrt
    · rw [hopM]
      exact hwf

/-- Witness for C4 (amended): instantiated at the empty dictionary and the
key `PA`; the Map operation's round trip returns the key. -/
theorem claim_C4_amended_witness :
    DictWF emptyDict
    ∧ reverseLookup ((MapDataSource.dictGetOrAdd emptyDict ("PA")).2).names
        ((MapDataSource.dictGetOrAdd emptyDict ("PA")).1) = ("PA") :=
  ⟨⟨rfl, by simp [emptyDict]⟩,
   (claim_C4_amended emptyDict ("PA") ⟨rfl, by simp [emptyDict]⟩).2.2.2.2.1⟩

/-- C5 counterexample: a single-file input whose only row is neither the
Kind-A header nor shaped like a sensor row is classified Kind B (Fire) by
both implementations' `load_single` — the claim's "otherwise defaults to
Kind A" is false on the single-file path. -/
theorem claim_C5_counterexample :
    VectorDataSource.classifySingle [[("x")]] = Dataset.Fire
    ∧ MapDataSource.classifySingle [[("x")]] = Dataset.Fire
    ∧ looksLikeFireRow [("x")] = false
    ∧ isPopulationHeader [("x")] = false := by
  decide

/-- C5 (amended): after a first row that is not the recognised Kind-A
header, the single-file loader classifies the input as Kind B
unconditionally (both branches of its shape test select Fire), while the
directory classifier tests the row after the consumed candidate header
against the shape predicate — Kind B exactly when such a row exists and
matches — and otherwise defaults to Kind A; the two implementations
classify identically. -/
theorem claim_C5_amended :
    (∀ (rows : FileRows) (h : Row), rows.head? = some h → isPopulationHeader h = false →
       VectorDataSource.classifySingle rows = Dataset.Fire
       ∧ MapDataSource.classifySingle rows = Dataset.Fire)
    ∧ (∀ (files : List FileRows) (f : FileRows) (h : Row),
        files.head? = some f → f.head? = some h → isPopulationHeader h = false →
        ((VectorDataSource.classifyDir files = Dataset.Fire
            ↔ ∃ r, f.tail.head? = some r ∧ looksLikeFireRow r = true)
         ∧ MapDataSource.classifyDir files = VectorDataSource.classifyDir files)) := by
  constructor
  · intro rows h hh hpop
    constructor <;>
      simp only [VectorDataSource.classifySingle, MapDataSource.classifySingle, hh, hpop,
        Bool.false_eq_true, if_false] <;>
      rcases rows.tail.head? with _ | r <;> simp
  · intro files f h hfl hh hpop
    refine ⟨?_, rfl⟩
    simp only [VectorDataSource.classifyDir, hfl, hh, hpop, Bool.false_eq_true, if_false]
    rcases f.tail.head? with _ | r
    · simp
    · by_cases hr : looksLikeFireRow r = true <;> simp [hr]

/-- Witness for C5 (amended): instantiated at a one-row single file and a
one-file directory. -/
theorem claim_C5_amended_witness :
    ([[("z")]] : FileRows).head? = some [("z")]
    ∧ isPopulationHeader [("z")] = false
    ∧ VectorDataSource.classifySingle [[("z")]] = Dataset.Fire
    ∧ MapDataSource.classifySingle [[("z")]] = Dataset.Fire :=
  ⟨by decide, by decide,
   (claim_C5_amended.1 [[("z")]] [("z")] (by decide) (by decide)).1,
   (claim_C5_amended.1 [[("z")]] [("z")] (by decide) (by decide)).2⟩

set_option maxHeartbeats 2000000 in
/-- Fail-closed behaviour of `VectorDataSource::findByRange`: a bound that
does not parse under the column's declared type, inverted parsed bounds,
or a column without a scan case for the store's dataset kind all yield the
empty result. -/
theorem VectorDataSource.findByRange_fail (s : VectorDataSource.Store) (col : Column)
    (loS hiS : String)
    (h : boundsFail col loS hiS = true ∨ colSupported s.dataset col = false) :
    VectorDataSource.findByRange s col loS hiS = [] := by
  obtain ⟨ds, fr, wr, dct⟩ := s
  rcases h with hb | hs
  · simp only [boundsFail, columnType] at hb
    cases ds <;> cases col <;>
      simp only [VectorDataSource.findByRange, VectorDataSource.findByRangeFire,
        VectorDataSource.findByRangeWB] <;>
      first
        | rfl
        | (rcases e1 : to_double loS with _ | lo <;> rcases e2 : to_double hiS with _ | hi <;>
            simp_all
           done)
        | (rcases e1 : to_int loS with _ | lo <;> rcases e2 : to_int hiS with _ | hi <;>
            simp_all
           done)
        | (rcases e1 : to_ll loS with _ | lo <;> rcases e2 : to_ll hiS with _ | hi <;>
            simp_all
           done)
  · cases ds <;> cases col <;>
      first
        | rfl
        | (simp only [] at hs; simp [colSupported] at hs)

/-- Fail-closed behaviour of `MapDataSource::findByRange`. -/
theorem MapDataSource.findByRange_failM (s : MapDataSource.Store) (col : Column)
    (loS hiS : String)
    (h : boundsFail col loS hiS = true ∨ colSupported s.dataset col = false) :
    MapDataSource.findByRange s col loS hiS = [] := by
  obtain ⟨ds, fr, wr, dct⟩ := s
  rw [← findByRange_cross ds fr wr dct dct col loS hiS]
  exact VectorDataSource.findByRange_fail ⟨ds, fr, wr, dct⟩ col loS hiS h

/-- Completeness of the fire scans: a record whose column value (the
claim's field-level reading) lies within parseable ordered bounds is
returned.  The `Value` column needs the ingestion invariant tying
`numericValue` to `value`. -/
theorem VectorDataSource.findByRange_fire_mem (s : VectorDataSource.Store) (col : Column)
    (loS hiS : String) (r : FireRecord)
    (hds : s.dataset = Dataset.Fire)
    (hinv : ∀ a ∈ s.fire_records,
      a.numericValue = (match a.value with | none => 0 | some v => v))
    (hr : r ∈ s.fire_records)
    (hm : match col with
      | Column.Value => ∃ lo hi v, to_double loS = some lo ∧ to_double hiS = some hi
          ∧ lo ≤ hi ∧ r.value = some v ∧ lo ≤ v ∧ v ≤ hi
      | Column.RawValue => ∃ lo hi v, to_double loS = some lo ∧ to_double hiS = some hi
          ∧ lo ≤ hi ∧ r.raw_value = some v ∧ lo ≤ v ∧ v ≤ hi
      | Column.Latitude => ∃ lo hi, to_double loS = some lo ∧ to_double hiS = some hi
          ∧ lo ≤ hi ∧ lo ≤ r.latitude ∧ r.latitude ≤ hi
      | Column.Longitude => ∃ lo hi, to_double loS = some lo ∧ to_double hiS = some hi
          ∧ lo ≤ hi ∧ lo ≤ r.longitude ∧ r.longitude ≤ hi
      | Column.Year => ∃ lo hi, to_int loS = some lo ∧ to_int hiS = some hi
          ∧ lo ≤ hi ∧ lo ≤ r.year ∧ r.year ≤ hi
      | Column.AQI => ∃ lo hi, to_int loS = some lo ∧ to_int hiS = some hi
          ∧ lo ≤ hi ∧ lo ≤ r.aqi ∧ r.aqi ≤ hi
      | Column.Category => ∃ lo hi, to_int loS = some lo ∧ to_int hiS = some hi
          ∧ lo ≤ hi ∧ lo ≤ (r.category : ℤ) ∧ (r.category : ℤ) ≤ hi
      | Column.UTCMinutes => ∃ lo hi, to_ll loS = some lo ∧ to_ll hiS = some hi
          ∧ lo ≤ hi ∧ lo ≤ r.utc_minutes ∧ r.utc_minutes ≤ hi
      | Column.ParameterId => ∃ lo hi, to_ll loS = some lo ∧ to_ll hiS = some hi
          ∧ lo ≤ hi ∧ lo ≤ (r.parameter_id : ℤ) ∧ (r.parameter_id : ℤ) ≤ hi
      | Column.UnitId => ∃ lo hi, to_ll loS = some lo ∧ to_ll hiS = some hi
          ∧ lo ≤ hi ∧ lo ≤ (r.unit_id : ℤ) ∧ (r.unit_id : ℤ) ≤ hi
      | Column.SiteId => ∃ lo hi, to_ll loS = some lo ∧ to_ll hiS = some hi
          ∧ lo ≤ hi ∧ lo ≤ (r.site_id : ℤ) ∧ (r.site_id : ℤ) ≤ hi
      | Column.AgencyId => ∃ lo hi, to_ll loS = some lo ∧ to_ll hiS = some hi
          ∧ lo ≤ hi ∧ lo ≤ (r.agency_id : ℤ) ∧ (r.agency_id : ℤ) ≤ hi
      | Column.AqsId => ∃ lo hi, to_ll loS = some lo ∧ to_ll hiS = some hi
          ∧ lo ≤ hi ∧ lo ≤ (r.aqs_id : ℤ) ∧ (r.aqs_id : ℤ) ≤ hi
      | _ => False) :
    VectorDataSource.fireToView r ∈ VectorDataSource.findByRange s col loS hiS := by
  obtain ⟨ds, fr, wr, dct⟩ := s
  simp only [] at hds hinv hr
  subst hds
  cases col with
  | Value =>
    obtain ⟨lo, hi, v, hlo, hhi, hle, hv, h1, h2⟩ := hm
    have hnum := hinv r hr
    simp only [hv] at hnum
    simp only [VectorDataSource.findByRange, VectorDataSource.findByRangeFire,
      VectorDataSource.findByRangeWB, hlo, hhi, if_neg (not_lt.2 hle)]
    exact List.mem_map_of_mem _ (List.mem_filter.2 ⟨hr, by simp [hnum, h1, h2]⟩)
  | RawValue =>
    obtain ⟨lo, hi, v, hlo, hhi, hle, hv, h1, h2⟩ := hm
    simp only [VectorDataSource.findByRange, VectorDataSource.findByRangeFire,
      VectorDataSource.findByRangeWB, hlo, hhi, if_neg (not_lt.2 hle)]
    exact List.mem_map_of_mem _ (List.mem_filter.2 ⟨hr, by simp [hv, h1, h2]⟩)
  | Latitude =>
    obtain ⟨lo, hi, hlo, hhi, hle, h1, h2⟩ := hm
    simp only [VectorDataSource.findByRange, VectorDataSource.findByRangeFire,
      VectorDataSource.findByRangeWB, hlo, hhi, if_neg (not_lt.2 hle)]
    exact List.mem_map_of_mem _ (List.mem_filter.2 ⟨hr, by simp [h1, h2]⟩)
  | Longitude =>
    obtain ⟨lo, hi, hlo, hhi, hle, h1, h2⟩ := hm
    simp only [VectorDataSource.findByRange, VectorDataSource.findByRangeFire,
      VectorDataSource.findByRangeWB, hlo, hhi, if_neg (not_lt.2 hle)]
    exact List.mem_map_of_mem _ (List.mem_filter.2 ⟨hr, by simp [h1, h2]⟩)
  | Year =>
    obtain ⟨lo, hi, hlo, hhi, hle, h1, h2⟩ := hm
    simp only [VectorDataSource.findByRange, VectorDataSource.findByRangeFire,
      VectorDataSource.findByRangeWB, hlo, hhi, if_neg (not_lt.2 hle)]
    exact List.mem_map_of_mem _ (List.mem_filter.2 ⟨hr, by simp [h1, h2]⟩)
  | AQI =>
    obtain ⟨lo, hi, hlo, hhi, hle, h1, h2⟩ := hm
    simp only [VectorDataSource.findByRange, VectorDataSource.findByRangeFire,
      VectorDataSource.findByRangeWB, hlo, hhi, if_neg (not_lt.2 hle)]
    exact List.mem_map_of_mem _ (List.mem_filter.2 ⟨hr, by simp [h1, h2]⟩)
  | Category =>
    obtain ⟨lo, hi, hlo, hhi, hle, h1, h2⟩ := hm
    simp only [VectorDataSource.findByRange, VectorDataSource.findByRangeFire,
      VectorDataSource.findByRangeWB, hlo, hhi, if_neg (not_lt.2 hle)]
    exact List.mem_map_of_mem _ (List.mem_filter.2 ⟨hr, by simp [h1, h2]⟩)
  | UTCMinutes =>
    obtain ⟨lo, hi, hlo, hhi, hle, h1, h2⟩ := hm
    simp only [VectorDataSource.findByRange, VectorDataSource.findByRangeFire,
      VectorDataSource.findByRangeWB, hlo, hhi, if_neg (not_lt.2 hle)]
    exact List.mem_map_of_mem _ (List.mem_filter.2 ⟨hr, by simp [h1, h2]⟩)
  | ParameterId =>
    obtain ⟨lo, hi, hlo, hhi, hle, h1, h2⟩ := hm
    simp only [VectorDataSource.findByRange, VectorDataSource.findByRangeFire,
      VectorDataSource.findByRangeWB, hlo, hhi, if_neg (not_lt.2 hle)]
    exact List.mem_map_of_mem _ (List.mem_filter.2 ⟨hr, by simp [h1, h2]⟩)
  | UnitId =>
    obtain ⟨lo, hi, hlo, hhi, hle, h1, h2⟩ := hm
    simp only [VectorDataSource.findByRange, VectorDataSource.findByRangeFire,
      VectorDataSource.findByRangeWB, hlo, hhi, if_neg (not_lt.2 hle)]
    exact List.mem_map_of_mem _ (List.mem_filter.2 ⟨hr, by simp [h1, h2]⟩)
  | SiteId =>
    obtain ⟨lo, hi, hlo, hhi, hle, h1, h2⟩ := hm
    simp only [VectorDataSource.findByRange, VectorDataSource.findByRangeFire,
      VectorDataSource.findByRangeWB, hlo, hhi, if_neg (not_lt.2 hle)]
    exact List.mem_map_of_mem _ (List.mem_filter.2 ⟨hr, by simp [h1, h2]⟩)
  | AgencyId =>
    obtain ⟨lo, hi, hlo, hhi, hle, h1, h2⟩ := hm
    simp only [VectorDataSource.findByRange, VectorDataSource.findByRangeFire,
      VectorDataSource.findByRangeWB, hlo, hhi, if_neg (not_lt.2 hle)]
    exact List.mem_map_of_mem _ (List.mem_filter.2 ⟨hr, by simp [h1, h2]⟩)
  | AqsId =>
    obtain ⟨lo, hi, hlo, hhi, hle, h1, h2⟩ := hm
    simp only [VectorDataSource.findByRange, VectorDataSource.findByRangeFire,
      VectorDataSource.findByRangeWB, hlo, hhi, if_neg (not_lt.2 hle)]
    exact List.mem_map_of_mem _ (List.mem_filter.2 ⟨hr, by simp [h1, h2]⟩)
  | Population => exact hm.elim
  | WB_CountryNameId => exact hm.elim
  | WB_CountryCodeId => exact hm.elim

/-- Completeness of the WorldBank scans. -/
theorem VectorDataSource.findByRange_wb_mem (s : VectorDataSource.Store) (col : Column)
    (loS hiS : String) (r : WorldBankRecord)
    (hds : s.dataset = Dataset.WorldBank)
    (hr : r ∈ s.worldbank_records)
    (hm : match col with
      | Column.Population => ∃ lo hi, to_double loS = some lo ∧ to_double hiS = some hi
          ∧ lo ≤ hi ∧ lo ≤ r.population ∧ r.population ≤ hi
      | Column.Year => ∃ lo hi, to_int loS = some lo ∧ to_int hiS = some hi
          ∧ lo ≤ hi ∧ lo ≤ r.year ∧ r.year ≤ hi
      | Column.WB_CountryNameId => ∃ lo hi, to_ll loS = some lo ∧ to_ll hiS = some hi
          ∧ lo ≤ hi ∧ lo ≤ (r.country_name_id : ℤ) ∧ (r.country_name_id : ℤ) ≤ hi
      | Column.WB_CountryCodeId => ∃ lo hi, to_ll loS = some lo ∧ to_ll hiS = some hi
          ∧ lo ≤ hi ∧ lo ≤ (r.country_code_id : ℤ) ∧ (r.country_code_id : ℤ) ≤ hi
      | _ => False) :
    VectorDataSource.worldbankToView r ∈ VectorDataSource.findByRange s col loS hiS := by
  obtain ⟨ds, fr, wr, dct⟩ := s
  simp only [] at hds hr
  subst hds
  cases col with
  | Population =>
    obtain ⟨lo, hi, hlo, hhi, hle, h1, h2⟩ := hm
    simp only [VectorDataSource.findByRange, VectorDataSource.findByRangeFire,
      VectorDataSource.findByRangeWB, hlo, hhi, if_neg (not_lt.2 hle)]
    exact List.mem_map_of_mem _ (List.mem_filter.2 ⟨hr, by simp [h1, h2]⟩)
  | Year =>
    obtain ⟨lo, hi, hlo, hhi, hle, h1, h2⟩ := hm
    simp only [VectorDataSource.findByRange, VectorDataSource.findByRangeFire,
      VectorDataSource.findByRangeWB, hlo, hhi, if_neg (not_lt.2 hle)]
    exact List.mem_map_of_mem _ (List.mem_filter.2 ⟨hr, by simp [h1, h2]⟩)
  | WB_CountryNameId =>
    obtain ⟨lo, hi, hlo, hhi, hle, h1, h2⟩ := hm
    simp only [VectorDataSource.findByRange, VectorDataSource.findByRangeFire,
      VectorDataSource.findByRangeWB, hlo, hhi, if_neg (not_lt.2 hle)]
    exact List.mem_map_of_mem _ (List.mem_filter.2 ⟨hr, by simp [h1, h2]⟩)
  | WB_CountryCodeId =>
    obtain ⟨lo, hi, hlo, hhi, hle, h1, h2⟩ := hm
    simp only [VectorDataSource.findByRange, VectorDataSource.findByRangeFire,
      VectorDataSource.findByRangeWB, hlo, hhi, if_neg (not_lt.2 hle)]
    exact List.mem_map_of_mem _ (List.mem_filter.2 ⟨hr, by simp [h1, h2]⟩)
  | Value => exact hm.elim
  | RawValue => exact hm.elim
  | Latitude => exact hm.elim
  | Longitude => exact hm.elim
  | AQI => exact hm.elim
  | Category => exact hm.elim
  | UTCMinutes => exact hm.elim
  | ParameterId => exact hm.elim
  | UnitId => exact hm.elim
  | SiteId => exact hm.elim
  | AgencyId => exact hm.elim
  | AqsId => exact hm.elim

/-- The trailing-column loop emits exactly one record per qualifying cell,
independently per column: it equals a `filterMap` over the column
indices. -/
theorem VectorDataSource.wbLoop_filterMap (header row : Row) (cn cc ind : ℕ) :
    ∀ cs : List ℕ,
      VectorDataSource.wbLoop header row cn cc ind cs
        = cs.filterMap (fun c =>
            match header.get? c with
            | none => none
            | some hcell =>
              if hcell.length = 4 && isDig (charAt hcell 0) then
                match to_int hcell with
                | none => none
                | some yr =>
                  if (row.getD c ("")).isEmpty then none
                  else match to_double (row.getD c ("")) with
                    | none => none
                    | some v => some ⟨cn, cc, ind, toI16 yr, v, v⟩
              else none) := by
  intro cs
  induction cs with
  | nil => rfl
  | cons c cs ih =>
    simp only [VectorDataSource.wbLoop, List.filterMap_cons]
    rcases hh : header.get? c with _ | hcell <;> simp only [hh]
    · exact ih
    · by_cases h1 : (hcell.length = 4 && isDig (charAt hcell 0)) = true
      · simp only [if_pos h1]
        rcases hy : to_int hcell with _ | yr <;> simp only [hy]
        · exact ih
        · by_cases he : ((row.getD c ("")).isEmpty = true)
          · simp only [if_pos he]
            exact ih
          · simp only [if_neg he]
            rcases hd : to_double (row.getD c ("")) with _ | v <;> simp only [hd]
            · exact ih
            · rw [ih]
      · simp only [if_neg h1]
        exact ih

/-- C10: for every Kind-A source row with at least 5 fields, ingestion (in
both implementations) produces exactly one stored record per trailing
column whose header cell is a 4-character digit-led string parsing as an
integer year and whose data cell is non-empty and parses as a number; the
record carries the three interned codes, the header year and the cell
value, and disqualified cells are skipped individually. -/
theorem claim_C10 (dicts : Dictionaries) (header row : Row) (h5 : 5 ≤ row.length) :
    (VectorDataSource.processWBRow dicts header row).1
      = (List.range' 4 (row.length - 4)).filterMap (fun c =>
          match header.get? c with
          | none => none
          | some hcell =>
            if hcell.length = 4 && isDig (charAt hcell 0) then
              match to_int hcell with
              | none => none
              | some yr =>
                if (row.getD c ("")).isEmpty then none
                else match to_double (row.getD c ("")) with
                  | none => none
                  | some v =>
                    some ⟨(VectorDataSource.getOrAddLocal dicts.country_name_dict
                            (row.getD 0 (""))).1,
                          (VectorDataSource.getOrAddLocal dicts.country_code_dict
                            (row.getD 1 (""))).1,
                          (VectorDataSource.getOrAddLocal dicts.indicator_dict
                            ((row.getD 2 ("")) ++ ("|") ++ (row.getD 3 ("")))).1,
                          toI16 yr, v, v⟩
            else none)
    ∧ (MapDataSource.processWBRow dicts header row).1
      = (List.range' 4 (row.length - 4)).filterMap (fun c =>
          match header.get? c with
          | none => none
          | some hcell =>
            if hcell.length = 4 && isDig (charAt hcell 0) then
              match to_int hcell with
              | none => none
              | some yr =>
                if (row.getD c ("")).isEmpty then none
                else match to_double (row.getD c ("")) with
                  | none => none
                  | some v =>
                    some ⟨(MapDataSource.dictGetOrAdd dicts.country_name_dict
                            (row.getD 0 (""))).1,
                          (MapDataSource.dictGetOrAdd dicts.country_code_dict
                            (row.getD 1 (""))).1,
                          (MapDataSource.dictGetOrAdd dicts.indicator_dict
                            ((row.getD 2 ("")) ++ ("|") ++ (row.getD 3 ("")))).1,
                          toI16 yr, v, v⟩
            else none) := by
  have hlen : ¬ row.length < 5 := by omega
  constructor
  · simp only [VectorDataSource.processWBRow, if_neg hlen]
    exact VectorDataSource.wbLoop_filterMap header row _ _ _ _
  · simp only [MapDataSource.processWBRow, if_neg hlen]
    rw [← wbLoop_cross]
    exact VectorDataSource.wbLoop_filterMap header row _ _ _ _

/-- Witness for C10: on the scenario's first data row only the year-2000
cell qualifies (the 2001 cell is empty), producing exactly one record. -/
theorem claim_C10_witness :
    5 ≤ ([("A"), ("AA"), ("Ind"), ("IC"), ("10"), ("")] : Row).length
    ∧ (VectorDataSource.processWBRow emptyDicts
        [("Country Name"), ("Country Code"), ("Indicator Name"), ("Indicator Code"),
         ("2000"), ("2001")]
        [("A"), ("AA"), ("Ind"), ("IC"), ("10"), ("")]).1
      = [⟨0, 0, 0, 2000, 10, 10⟩] :=
  ⟨by decide,
   ((claim_C10 emptyDicts
      [("Country Name"), ("Country Code"), ("Indicator Name"), ("Indicator Code"),
       ("2000"), ("2001")]
      [("A"), ("AA"), ("Ind"), ("IC"), ("10"), ("")] (by decide)).1).trans (by decide)⟩

/-- C7: for every store of either implementation, `findMin` (resp.
`findMax`) returns no result exactly when the store's active record list is
empty, and any returned view is the view of a record that attains the
minimum (resp. maximum) `numericValue`, with every earlier record in
storage order strictly worse — i.e. ties resolve to the first such row. -/
theorem claim_C7 (sV : VectorDataSource.Store) (sM : MapDataSource.Store) :
    ((VectorDataSource.findMin sV = none
        ↔ (match sV.dataset with
           | Dataset.Fire => sV.fire_records = []
           | Dataset.WorldBank => sV.worldbank_records = []))
     ∧ (∀ v, VectorDataSource.findMin sV = some v → sV.dataset = Dataset.Fire →
         ∃ r pre post, sV.fire_records = pre ++ r :: post
           ∧ v = VectorDataSource.fireToView r
           ∧ (∀ a ∈ sV.fire_records, r.numericValue ≤ a.numericValue)
           ∧ (∀ a ∈ pre, r.numericValue < a.numericValue))
     ∧ (∀ v, VectorDataSource.findMin sV = some v → sV.dataset = Dataset.WorldBank →
         ∃ r pre post, sV.worldbank_records = pre ++ r :: post
           ∧ v = VectorDataSource.worldbankToView r
           ∧ (∀ a ∈ sV.worldbank_records, r.numericValue ≤ a.numericValue)
           ∧ (∀ a ∈ pre, r.numericValue < a.numericValue)))
    ∧ ((VectorDataSource.findMax sV = none
        ↔ (match sV.dataset with
           | Dataset.Fire => sV.fire_records = []
           | Dataset.WorldBank => sV.worldbank_records = []))
     ∧ (∀ v, VectorDataSource.findMax sV = some v → sV.dataset = Dataset.Fire →
         ∃ r pre post, sV.fire_records = pre ++ r :: post
           ∧ v = VectorDataSource.fireToView r
           ∧ (∀ a ∈ sV.fire_records, a.numericValue ≤ r.numericValue)
           ∧ (∀ a ∈ pre, a.numericValue < r.numericValue))
     ∧ (∀ v, VectorDataSource.findMax sV = some v → sV.dataset = Dataset.WorldBank →
         ∃ r pre post, sV.worldbank_records = pre ++ r :: post
           ∧ v = VectorDataSource.worldbankToView r
           ∧ (∀ a ∈ sV.worldbank_records, a.numericValue ≤ r.numericValue)
           ∧ (∀ a ∈ pre, a.numericValue < r.numericValue)))
    ∧ ((MapDataSource.findMin sM = none
        ↔ (match sM.dataset with
           | Dataset.Fire => sM.fire_records = []
           | Dataset.WorldBank => sM.worldbank_records = []))
     ∧ (∀ v, MapDataSource.findMin sM = some v → sM.dataset = Dataset.Fire →
         ∃ r pre post, sM.fire_records = pre ++ r :: post
           ∧ v = MapDataSource.fireToView r
           ∧ (∀ a ∈ sM.fire_records, r.numericValue ≤ a.numericValue)
           ∧ (∀ a ∈ pre, r.numericValue < a.numericValue))
     ∧ (∀ v, MapDataSource.findMin sM = some v → sM.dataset = Dataset.WorldBank →
         ∃ r pre post, sM.worldbank_records = pre ++ r :: post
           ∧ v = MapDataSource.worldbankToView r
           ∧ (∀ a ∈ sM.worldbank_records, r.numericValue ≤ a.numericValue)
           ∧ (∀ a ∈ pre, r.numericValue < a.numericValue)))
    ∧ ((MapDataSource.findMax sM = none
        ↔ (match sM.dataset with
           | Dataset.Fire => sM.fire_records = []
           | Dataset.WorldBank => sM.worldbank_records = []))
     ∧ (∀ v, MapDataSource.findMax sM = some v → sM.dataset = Dataset.Fire →
         ∃ r pre post, sM.fire_records = pre ++ r :: post
           ∧ v = MapDataSource.fireToView r
           ∧ (∀ a ∈ sM.fire_records, a.numericValue ≤ r.numericValue)
           ∧ (∀ a ∈ pre, a.numericValue < r.numericValue))
     ∧ (∀ v, MapDataSource.findMax sM = some v → sM.dataset = Dataset.WorldBank →
         ∃ r pre post, sM.worldbank_records = pre ++ r :: post
           ∧ v = MapDataSource.worldbankToView r
           ∧ (∀ a ∈ sM.worldbank_records, a.numericValue ≤ r.numericValue)
           ∧ (∀ a ∈ pre, a.numericValue < r.numericValue))) :=
  ⟨VectorDataSource.findMin_spec sV, VectorDataSource.findMax_spec sV,
   MapDataSource.findMin_specM sM, MapDataSource.findMax_specM sM⟩

/-- Witness for C7: on the two-record Kind-A scenario store, `findMax`
returns the view of the year-2001 value-20 record, and the theorem's
decomposition applies to it. -/
theorem claim_C7_witness :
    VectorDataSource.findMax (VectorDataSource.buildSingle kindAScenarioRows)
      = some (VectorDataSource.worldbankToView ⟨1, 1, 0, 2001, 20, 20⟩)
    ∧ (VectorDataSource.buildSingle kindAScenarioRows).dataset = Dataset.WorldBank
    ∧ ∃ r pre post,
        (VectorDataSource.buildSingle kindAScenarioRows).worldbank_records = pre ++ r :: post
        ∧ VectorDataSource.worldbankToView ⟨1, 1, 0, 2001, 20, 20⟩
            = VectorDataSource.worldbankToView r
        ∧ (∀ a ∈ (VectorDataSource.buildSingle kindAScenarioRows).worldbank_records,
            a.numericValue ≤ r.numericValue)
        ∧ (∀ a ∈ pre, a.numericValue < r.numericValue) :=
  ⟨by decide, by decide,
   (claim_C7 (VectorDataSource.buildSingle kindAScenarioRows)
      (MapDataSource.buildSingle kindAScenarioRows)).2.1.2.2
     (VectorDataSource.worldbankToView ⟨1, 1, 0, 2001, 20, 20⟩) (by decide) (by decide)⟩

/-- C8: for every store of either implementation, `sumByYear y` equals the
sum of `numericValue` over exactly the records whose `year` equals `y`
(hence 0 when none match, the empty sum); and on the concrete Kind-A
scenario (year 2000 value 10, year 2001 value 20), `sumByYear 2000 = 10`
and `sumByYear 1999 = 0` in both implementations. -/
theorem claim_C8 (sV : VectorDataSource.Store) (sM : MapDataSource.Store) (y : ℤ) :
    (sV.dataset = Dataset.Fire →
      VectorDataSource.sumByYear sV y
        = ((sV.fire_records.filter (fun r => decide (r.year = y))).map
            FireRecord.numericValue).sum)
    ∧ (sV.dataset = Dataset.WorldBank →
      VectorDataSource.sumByYear sV y
        = ((sV.worldbank_records.filter (fun r => decide (r.year = y))).map
            WorldBankRecord.numericValue).sum)
    ∧ (sM.dataset = Dataset.Fire →
      MapDataSource.sumByYear sM y
        = ((sM.fire_records.filter (fun r => decide (r.year = y))).map
            FireRecord.numericValue).sum)
    ∧ (sM.dataset = Dataset.WorldBank →
      MapDataSource.sumByYear sM y
        = ((sM.worldbank_records.filter (fun r => decide (r.year = y))).map
            WorldBankRecord.numericValue).sum)
    ∧ VectorDataSource.sumByYear (VectorDataSource.buildSingle kindAScenarioRows) 2000 = 10
    ∧ VectorDataSource.sumByYear (VectorDataSource.buildSingle kindAScenarioRows) 1999 = 0
    ∧ MapDataSource.sumByYear (MapDataSource.buildSingle kindAScenarioRows) 2000 = 10
    ∧ MapDataSource.sumByYear (MapDataSource.buildSingle kindAScenarioRows) 1999 = 0 := by
  refine ⟨(VectorDataSource.sumByYear_spec sV y).1, (VectorDataSource.sumByYear_spec sV y).2,
    (MapDataSource.sumByYear_specM sM y).1, (MapDataSource.sumByYear_specM sM y).2,
    ?_, ?_, ?_, ?_⟩
  · rw [VectorDataSource.sumByYear_wbList _ 2000
      [⟨0, 0, 0, 2000, 10, 10⟩, ⟨1, 1, 0, 2001, 20, 20⟩] (by decide) (by decide)]
    norm_num [List.foldl]
  · rw [VectorDataSource.sumByYear_wbList _ 1999
      [⟨0, 0, 0, 2000, 10, 10⟩, ⟨1, 1, 0, 2001, 20, 20⟩] (by decide) (by decide)]
    norm_num [List.foldl]
  · rw [MapDataSource.sumByYear_wbListM _ 2000
      [⟨0, 0, 0, 2000, 10, 10⟩, ⟨1, 1, 0, 2001, 20, 20⟩] (by decide) (by decide)]
    norm_num [List.foldl]
  · rw [MapDataSource.sumByYear_wbListM _ 1999
      [⟨0, 0, 0, 2000, 10, 10⟩, ⟨1, 1, 0, 2001, 20, 20⟩] (by decide) (by decide)]
    norm_num [List.foldl]

/-- Witness for C8: the filter-sum characterisation instantiated on the
Kind-A scenario store. -/
theorem claim_C8_witness :
    (VectorDataSource.buildSingle kindAScenarioRows).dataset = Dataset.WorldBank
    ∧ VectorDataSource.sumByYear (VectorDataSource.buildSingle kindAScenarioRows) 2000
      = ((((VectorDataSource.buildSingle kindAScenarioRows).worldbank_records).filter
          (fun r => decide (r.year = 2000))).map WorldBankRecord.numericValue).sum :=
  ⟨by decide,
   (claim_C8 (VectorDataSource.buildSingle kindAScenarioRows)
      (MapDataSource.buildSingle kindAScenarioRows) 2000).2.1 (by decide)⟩

/-- C6: `findByRange` is a total function (no error path exists in the
model, mirroring the exception-free source), returns the empty sequence
whenever either bound fails to parse under the column's declared type or
the parsed low exceeds the parsed high or the column has no scan case for
the store's dataset kind; and otherwise returns every row whose value in
the queried column lies within the inclusive parsed bounds — stated
field-level per column, for single-file stores of both implementations. -/
theorem claim_C6 (rows : FileRows) (col : Column) (loS hiS : String) :
    ((boundsFail col loS hiS = true
        ∨ colSupported (VectorDataSource.buildSingle rows).dataset col = false) →
      VectorDataSource.findByRange (VectorDataSource.buildSingle rows) col loS hiS = []
      ∧ MapDataSource.findByRange (MapDataSource.buildSingle rows) col loS hiS = [])
    ∧ (∀ r ∈ (VectorDataSource.buildSingle rows).fire_records,
        (match col with
         | Column.Value => ∃ lo hi v, to_double loS = some lo ∧ to_double hiS = some hi
             ∧ lo ≤ hi ∧ r.value = some v ∧ lo ≤ v ∧ v ≤ hi
         | Column.RawValue => ∃ lo hi v, to_double loS = some lo ∧ to_double hiS = some hi
             ∧ lo ≤ hi ∧ r.raw_value = some v ∧ lo ≤ v ∧ v ≤ hi
         | Column.Latitude => ∃ lo hi, to_double loS = some lo ∧ to_double hiS = some hi
             ∧ lo ≤ hi ∧ lo ≤ r.latitude ∧ r.latitude ≤ hi
         | Column.Longitude => ∃ lo hi, to_double loS = some lo ∧ to_double hiS = some hi
             ∧ lo ≤ hi ∧ lo ≤ r.longitude ∧ r.longitude ≤ hi
         | Column.Year => ∃ lo hi, to_int loS = some lo ∧ to_int hiS = some hi
             ∧ lo ≤ hi ∧ lo ≤ r.year ∧ r.year ≤ hi
         | Column.AQI => ∃ lo hi, to_int loS = some lo ∧ to_int hiS = some hi
             ∧ lo ≤ hi ∧ lo ≤ r.aqi ∧ r.aqi ≤ hi
         | Column.Category => ∃ lo hi, to_int loS = some lo ∧ to_int hiS = some hi
             ∧ lo ≤ hi ∧ lo ≤ (r.category : ℤ) ∧ (r.category : ℤ) ≤ hi
         | Column.UTCMinutes => ∃ lo hi, to_ll loS = some lo ∧ to_ll hiS = some hi
             ∧ lo ≤ hi ∧ lo ≤ r.utc_minutes ∧ r.utc_minutes ≤ hi
         | Column.ParameterId => ∃ lo hi, to_ll loS = some lo ∧ to_ll hiS = some hi
             ∧ lo ≤ hi ∧ lo ≤ (r.parameter_id : ℤ) ∧ (r.parameter_id : ℤ) ≤ hi
         | Column.UnitId => ∃ lo hi, to_ll loS = some lo ∧ to_ll hiS = some hi
             ∧ lo ≤ hi ∧ lo ≤ (r.unit_id : ℤ) ∧ (r.unit_id : ℤ) ≤ hi
         | Column.SiteId => ∃ lo hi, to_ll loS = some lo ∧ to_ll hiS = some hi
             ∧ lo ≤ hi ∧ lo ≤ (r.site_id : ℤ) ∧ (r.site_id : ℤ) ≤ hi
         | Column.AgencyId => ∃ lo hi, to_ll loS = some lo ∧ to_ll hiS = some hi
             ∧ lo ≤ hi ∧ lo ≤ (r.agency_id : ℤ) ∧ (r.agency_id : ℤ) ≤ hi
         | Column.AqsId => ∃ lo hi, to_ll loS = some lo ∧ to_ll hiS = some hi
             ∧ lo ≤ hi ∧ lo ≤ (r.aqs_id : ℤ) ∧ (r.aqs_id : ℤ) ≤ hi
         | _ => False) →
        VectorDataSource.fireToView r
            ∈ VectorDataSource.findByRange (VectorDataSource.buildSingle rows) col loS hiS
        ∧ MapDataSource.fireToView r
            ∈ MapDataSource.findByRange (MapDataSource.buildSingle rows) col loS hiS)
    ∧ (∀ r ∈ (VectorDataSource.buildSingle rows).worldbank_records,
        (match col with
         | Column.Population => ∃ lo hi, to_double loS = some lo ∧ to_double hiS = some hi
             ∧ lo ≤ hi ∧ lo ≤ r.population ∧ r.population ≤ hi
         | Column.Year => ∃ lo hi, to_int loS = some lo ∧ to_int hiS = some hi
             ∧ lo ≤ hi ∧ lo ≤ r.year ∧ r.year ≤ hi
         | Column.WB_CountryNameId => ∃ lo hi, to_ll loS = some lo ∧ to_ll hiS = some hi
             ∧ lo ≤ hi ∧ lo ≤ (r.country_name_id : ℤ) ∧ (r.country_name_id : ℤ) ≤ hi
         | Column.WB_CountryCodeId => ∃ lo hi, to_ll loS = some lo ∧ to_ll hiS = some hi
             ∧ lo ≤ hi ∧ lo ≤ (r.country_code_id : ℤ) ∧ (r.country_code_id : ℤ) ≤ hi
         | _ => False) →
        VectorDataSource.worldbankToView r
            ∈ VectorDataSource.findByRange (VectorDataSource.buildSingle rows) col loS hiS
        ∧ MapDataSource.worldbankToView r
            ∈ MapDataSource.findByRange (MapDataSource.buildSingle rows) col loS hiS) := by
  refine ⟨?_, ?_, ?_⟩
  · intro h
    have h2 : boundsFail col loS hiS = true
        ∨ colSupported (MapDataSource.buildSingle rows).dataset col = false := by
      rcases h with h | h
      · exact Or.inl h
      · rw [(buildSingle_sim rows).1] at h
        exact Or.inr h
    exact ⟨VectorDataSource.findByRange_fail _ _ _ _ h,
           MapDataSource.findByRange_failM _ _ _ _ h2⟩
  · intro r hr hm
    have hds : (VectorDataSource.buildSingle rows).dataset = Dataset.Fire := by
      rcases hc : VectorDataSource.classifySingle rows
      · simp [VectorDataSource.buildSingle, hc]
      · exfalso
        rw [VectorDataSource.buildSingle_fire_records, hc] at hr
        simp at hr
    have hvec := VectorDataSource.findByRange_fire_mem _ col loS hiS r hds
      (VectorDataSource.buildSingle_fire_numeric rows) hr hm
    refine ⟨hvec, ?_⟩
    have hview : MapDataSource.fireToView = VectorDataSource.fireToView := rfl
    rw [hview, ← (buildSingle_query_eq rows col loS hiS 0).1]
    exact hvec
  · intro r hr hm
    have hds : (VectorDataSource.buildSingle rows).dataset = Dataset.WorldBank := by
      rcases hc : VectorDataSource.classifySingle rows
      · exfalso
        rw [VectorDataSource.buildSingle_wb_records, hc] at hr
        simp at hr
      · simp [VectorDataSource.buildSingle, hc]
    have hvec := VectorDataSource.findByRange_wb_mem _ col loS hiS r hds hr hm
    refine ⟨hvec, ?_⟩
    have hview : MapDataSource.worldbankToView = VectorDataSource.worldbankToView := rfl
    rw [hview, ← (buildSingle_query_eq rows col loS hiS 0).1]
    exact hvec

/-- Witness for C6: on the single-row fire store, a latitude-1 record lies
within the parsed bounds [0, 50] and is returned by the scan. -/
theorem claim_C6_witness :
    (⟨1, 2, 27875520, 0, 0, some 7, some 7, 50, 1, 0, 0, 0, 2023, 7⟩ : FireRecord)
      ∈ (VectorDataSource.buildSingle [fireRowPA]).fire_records
    ∧ VectorDataSource.fireToView
        ⟨1, 2, 27875520, 0, 0, some 7, some 7, 50, 1, 0, 0, 0, 2023, 7⟩
        ∈ VectorDataSource.findByRange (VectorDataSource.buildSingle [fireRowPA])
            Column.Latitude ("0") ("50") :=
  ⟨by decide,
   ((claim_C6 [fireRowPA] Column.Latitude ("0") ("50")).2.1 _ (by decide)
      ⟨0, 50, by decide, by decide, by decide, by decide, by decide⟩).1⟩

end Mini1
